import Mathlib

/-!
Shallow embedding of `src/slurm_plugin/cluster_event_publisher.py` (and the
parts of its collaborators that the file uses), together with proofs about it.

Conventions:
* Python strings are modelled as `String` / `List Char`.
* Python exceptions are modelled with `Except String`.
* Python generators that are materialized by their consumer are modelled as
  the lists of the values they yield (errors raised while yielding collapse
  the whole materialization into `Except.error`, matching `list(gen)`).
-/

/-! ## Character and string utilities mirroring the `re` usage in the source -/

/-- `re.sub(r"\s+", "", s)`: remove every whitespace character. -/
def stripWs (s : List Char) : List Char :=
  s.filter (fun c => !c.isWhitespace)

/-- `re.search` for a single-character pattern: split the input at the first
character satisfying `p`, returning the part before the match, the matched
character, and the part after the match (`none` when there is no match). -/
def splitAtFirst (p : Char → Bool) : List Char → Option (List Char × Char × List Char)
  | [] => none
  | c :: rest =>
    if p c then some ([], c, rest)
    else (splitAtFirst p rest).map (fun r => (c :: r.1, r.2.1, r.2.2))

/-- `re.split` on a single-character separator; like Python, splitting the
empty string yields `[""]`. -/
def splitOnChar (sep : Char) : List Char → List (List Char)
  | [] => [[]]
  | c :: rest =>
    if c = sep then [] :: splitOnChar sep rest
    else
      match splitOnChar sep rest with
      | [] => [[c]]
      | t :: ts => (c :: t) :: ts

/-- Consume one leading comma if present (the optional `,` of the `\],?`
pattern in `_expand_slurm_node_spec`). -/
def dropLeadingComma : List Char → List Char
  | ',' :: r => r
  | r => r

/-! ## Decimal numerals: `int(...)` and f-string rendering of numbers -/

/-- Numeric value of an ASCII digit. -/
def digitVal (c : Char) : Nat := c.toNat - '0'.toNat

/-- Parse the remainder of a decimal literal after its first digit, allowing
Python's single-underscore digit grouping (`int("1_0") == 10`); rejects
trailing or doubled underscores. -/
def digitsUndAux (acc : Nat) : List Char → Option Nat
  | [] => some acc
  | c :: rest =>
    if c.isDigit then digitsUndAux (acc * 10 + digitVal c) rest
    else if c = '_' then
      match rest with
      | c2 :: rest2 =>
        if c2.isDigit then digitsUndAux (acc * 10 + digitVal c2) rest2 else none
      | [] => none
    else none

/-- Parse a nonempty unsigned decimal literal (first character must be a
digit). -/
def pyIntDigits : List Char → Option Nat
  | [] => none
  | c :: rest => if c.isDigit then digitsUndAux (digitVal c) rest else none

/-- Python `int(s)` restricted to ASCII decimal literals with an optional
sign, as produced by splitting a hostlist range token (whitespace has already
been removed from the whole spec before tokens are formed). A failure models
the `ValueError` that `int` raises. -/
def pyInt : List Char → Except String Int
  | [] => .error "invalid literal for int"
  | c :: rest =>
    if c = '+' then
      match pyIntDigits rest with
      | some n => .ok (Int.ofNat n)
      | none => .error "invalid literal for int"
    else if c = '-' then
      match pyIntDigits rest with
      | some n => .ok (-(Int.ofNat n : Int))
      | none => .error "invalid literal for int"
    else
      match pyIntDigits (c :: rest) with
      | some n => .ok (Int.ofNat n)
      | none => .error "invalid literal for int"

/-- Decimal digits of `n`, most significant first, via a fuel argument so the
definition is structural (the fuel `n + 1` always suffices). -/
def natDigitsGo : Nat → Nat → List Char → List Char
  | 0, _, acc => acc
  | fuel + 1, n, acc =>
    if n < 10 then Char.ofNat ('0'.toNat + n % 10) :: acc
    else natDigitsGo fuel (n / 10) (Char.ofNat ('0'.toNat + n % 10) :: acc)

/-- Decimal rendering of a natural number (the digits of `f"{n}"`). -/
def natDigits (n : Nat) : List Char := natDigitsGo (n + 1) n []

/-- Decimal rendering of an integer (the digits of `f"{i}"`). -/
def intDigits (i : Int) : List Char :=
  if i < 0 then '-' :: natDigits i.natAbs else natDigits i.natAbs

/-- Python `range(start, stop)` over integers. -/
def pyRange (start stop : Int) : List Int :=
  (List.range (stop - start).toNat).map (fun k => start + Int.ofNat k)

/-! ## `_generate_from_range_spec` -/

/-- Processing of one comma-separated span of a range spec: split on `-`,
reject more than two parts, parse the bounds with `int`, reject descending
ranges, and expand `start..end` inclusively against the base name. -/
def processSpan (base : List Char) (node_range_spec : List Char) (span : List Char) :
    Except String (List String) :=
  let range_list := splitOnChar '-' span
  match range_list with
  | [a] => do
    let start ← pyInt a
    if start > start then .error ("Invalid range spec: " ++ node_range_spec.asString)
    else .ok ((pyRange start (start + 1)).map (fun i => (base ++ intDigits i).asString))
  | [a, b] => do
    let start ← pyInt a
    let stop ← pyInt b
    if start > stop then .error ("Invalid range spec: " ++ node_range_spec.asString)
    else .ok ((pyRange start (stop + 1)).map (fun i => (base ++ intDigits i).asString))
  | _ => .error ("Invalid range spec: " ++ node_range_spec.asString)

/-- Sequential processing of all spans; an error raised at any span makes the
whole materialization fail, as `list(...)` over the generator does. -/
def goSpans (base : List Char) (node_range_spec : List Char) :
    List (List Char) → Except String (List String)
  | [] => .ok []
  | sp :: rest => do
    let xs ← processSpan base node_range_spec sp
    let ys ← goSpans base node_range_spec rest
    .ok (xs ++ ys)

/-- `_generate_from_range_spec(base_name, node_range_spec)`: expand a slurm
range spec such as `1-3,7,11-12` to individual node names. -/
def _generate_from_range_spec (base_name : List Char) (node_range_spec : List Char) :
    Except String (List String) :=
  goSpans base_name node_range_spec (splitOnChar ',' node_range_spec)

/-! ## `_expand_slurm_node_spec` -/

theorem splitAtFirst_eq_some {p : Char → Bool} :
    ∀ {s b a : List Char} {c : Char},
      splitAtFirst p s = some (b, c, a) → s = b ++ c :: a ∧ p c ∧ ∀ x ∈ b, p x = false
  | [], b, a, c => by simp [splitAtFirst]
  | x :: rest, b, a, c => by
    simp only [splitAtFirst]
    by_cases hx : p x
    · simp only [hx, if_pos, Option.some.injEq]
      intro h
      simp only [Prod.mk.injEq] at h
      obtain ⟨hb, hc, ha⟩ := h
      subst hb; subst hc; subst ha
      simp [hx]
    · simp only [hx, if_neg, Option.map_eq_some', Bool.false_eq_true, not_false_iff]
      rintro ⟨⟨b', c', a'⟩, hsp, heq⟩
      simp only [Prod.mk.injEq] at heq
      obtain ⟨hb, hc, ha⟩ := heq
      subst hb; subst hc; subst ha
      obtain ⟨hs, hc, hb⟩ := splitAtFirst_eq_some hsp
      refine ⟨by simp [hs], hc, ?_⟩
      intro y hy
      rcases List.mem_cons.mp hy with rfl | hy
      · simpa using hx
      · exact hb y hy

theorem dropLeadingComma_length (r : List Char) :
    (dropLeadingComma r).length ≤ r.length := by
  unfold dropLeadingComma
  split <;> simp

/-- Body of the `while slurm_node_spec:` loop of `_expand_slurm_node_spec`:
at each step find the first `[` or `,`; a `,` terminates a plain element, a
`[` opens a bracketed element whose matching `]` (with an optional following
comma, the `\],?` pattern) is searched from the start of the current string;
with no match the remainder is a final plain element. -/
def expandLoop (s : List Char) : Except String (List String) :=
  if _hs : s = [] then .ok []
  else
    match _h : splitAtFirst (fun c => c == '[' || c == ',') s with
    | none => .ok [s.asString]
    | some (base_name, mc, rest) =>
      if base_name.isEmpty then
        .error ("Invalid node spec @" ++ s.asString ++ " - empty node name not allowed.")
      else if mc == ',' then
        (fun t => base_name.asString :: t) <$> expandLoop rest
      else
        match _h2 : splitAtFirst (fun c => c == ']') s with
        | none =>
          .error ("Invalid node spec @" ++ s.asString ++ " - missing closing \x27]\x27.")
        | some (before, _, after) =>
          if before.length < base_name.length then
            .error ("Invalid node spec @" ++ s.asString ++ " - missing closing \x27]\x27.")
          else do
            let names ← _generate_from_range_spec base_name (before.drop (base_name.length + 1))
            let tail ← expandLoop (dropLeadingComma after)
            .ok (names ++ tail)
termination_by s.length
decreasing_by
  · obtain ⟨hs, -, -⟩ := splitAtFirst_eq_some _h
    subst hs
    simp only [List.length_append, List.length_cons]
    omega
  · obtain ⟨hs, -, -⟩ := splitAtFirst_eq_some _h2
    subst hs
    calc (dropLeadingComma after).length ≤ after.length := dropLeadingComma_length after
      _ < (before ++ _ :: after).length := by simp; omega

/-- `_expand_slurm_node_spec(slurm_node_spec)`: strip whitespace, then run
the scanning loop. -/
def _expand_slurm_node_spec (slurm_node_spec : String) : Except String (List String) :=
  expandLoop (stripWs slurm_node_spec.data)

/-! ## Failure classification table -/

/-- Modelled from the spec: `SlurmNode.EC2_ICE_ERROR_CODES` lives in
`slurm_plugin.slurm_resources`, which is not among the sources; §8 of the
spec lists the six ICE-family codes. -/
def EC2_ICE_ERROR_CODES : List String :=
  ["InsufficientInstanceCapacity", "InsufficientHostCapacity",
   "InsufficientReservedInstanceCapacity", "MaxSpotInstanceCountExceeded",
   "Unsupported", "SpotMaxPriceTooLow"]

/-- The module-level `LAUNCH_FAILURE_GROUPING` dict, built by the imperative
loops at the top of the file; modelled as an association list in insertion
order (all keys are distinct, so the repeated `update` calls only append). -/
def LAUNCH_FAILURE_GROUPING : List (String × String) :=
  EC2_ICE_ERROR_CODES.map (fun failure => (failure, "ice-failures"))
    ++ [("VcpuLimitExceeded", "vcpu-limit-failures")]
    ++ [("VolumeLimitExceeded", "volume-limit-failures"),
        ("InsufficientVolumeCapacity", "volume-limit-failures")]
    ++ [("InvalidBlockDeviceMapping", "custom-ami-errors")]
    ++ [("UnauthorizedOperation", "iam-policy-errors"),
        ("AccessDeniedException", "iam-policy-errors")]

/-- `ClusterEventPublisher._get_failure_type_from_error_code`:
`LAUNCH_FAILURE_GROUPING.get(error_code, "other-failures")`. -/
def _get_failure_type_from_error_code (error_code : String) : String :=
  (LAUNCH_FAILURE_GROUPING.lookup error_code).getD "other-failures"

/-! ## JSON-like event payloads -/

/-- The payload values carried by events (Python dicts, lists, strings,
numbers and `None`). -/
inductive Value where
  | str (s : String)
  | num (n : Int)
  | null
  | arr (elems : List Value)
  | obj (fields : List (String × Value))

/-- `None`-aware rendering of an optional string attribute. -/
def optStr : Option String → Value
  | some s => .str s
  | none => .null

/-! ## Node and instance records (external domain model)

`DynamicNode`/`StaticNode`/`SlurmNode` and the instance record come from
`slurm_plugin.slurm_resources`, which is not among the sources. Modelled
from the spec (§3, §6): the fields this module reads, plus an opaque
`description` payload standing for the external `description()` method. -/

/-- Modelled from the spec: the instance record (§3, §6): `id`,
`private_ip`, plus an opaque `description()` payload. -/
structure InstanceRec where
  id : String
  private_ip : String
  description : Value

/-- Modelled from the spec: the node record fields this module reads (§3).
`is_dynamic` stands for `isinstance(node, DynamicNode)`; `description` for
the external `description()` payload. -/
structure SlurmNode where
  name : String
  canonical_state_string : String
  queue_name : String
  compute_resource_name : String
  «instance» : Option InstanceRec
  idle_time : Int
  error_code : Option String
  reason : Option String
  is_dynamic : Bool
  description : Value

/-! ## Sink calls and the publisher -/

/-- One invocation of the injected sink (`self.publish_event(...)`): the
positional `level` and `message`, the `event_type` and optional `timestamp`
keyword arguments, and exactly one of `detail` / `event_supplier` (the
supplier recorded as the list of payloads it yields). -/
structure SinkCall where
  level : String
  message : String
  event_type : String
  timestamp : Option String
  detail : Option Value
  event_supplier : Option (List Value)

/-- `ClusterEventPublisher.__init__` stores the injected sink callable and
`max_list_size` (default 100). The sink is handled by returning the list of
calls a method makes, so only `max_list_size` is state. -/
structure ClusterEventPublisher where
  max_list_size : Nat := 100

/-- `ClusterEventPublisher._count_cluster_states`: a `Counter` over the
nodes' canonical state strings, yielded in first-occurrence order. -/
def _count_cluster_states (nodes : List SlurmNode) : List Value :=
  let states := nodes.map (fun node => node.canonical_state_string)
  let distinct := states.foldl (fun acc s => if s ∈ acc then acc else acc ++ [s]) []
  distinct.map (fun s =>
    .obj [("detail", .obj [("state", .str s), ("count", .num (states.count s))])])

/-- `ClusterEventPublisher._successful_node_launch_supplier`. -/
def _successful_node_launch_supplier (successful_nodes : List (String × InstanceRec)) :
    List Value :=
  [.obj [("detail", .obj [
     ("count", .num successful_nodes.length),
     ("nodes", .arr (successful_nodes.map (fun p =>
       .obj [("name", .str p.1), ("id", .str p.2.id), ("ip", .str p.2.private_ip)])))])]]

/-- `ClusterEventPublisher._format_node_idle_time`. -/
def _format_node_idle_time (max_node : Option SlurmNode) (idle_nodes : List SlurmNode) :
    Value :=
  match max_node with
  | some m =>
    if m.idle_time > 0 then
      .obj [("idle-time", .num m.idle_time),
            ("idle-count", .num idle_nodes.length),
            ("most-idle-node", .obj [
              ("name", .str m.name),
              ("partition", .str m.queue_name),
              ("resource", .str m.compute_resource_name),
              ("instance-id", match m.«instance» with
                | some inst => .str inst.id
                | none => .null)])]
    else .obj [("idle-time", .num 0), ("idle-count", .num 0)]
  | none => .obj [("idle-time", .num 0), ("idle-count", .num 0)]

/-- The single-pass partition of `_get_max_idle_times`: nodes with strictly
positive idle time, appended to the dynamic or the static list. -/
def idlePartition (nodes : List SlurmNode) : List SlurmNode × List SlurmNode :=
  nodes.foldl
    (fun acc node =>
      if node.idle_time > 0 then
        if node.is_dynamic then (acc.1 ++ [node], acc.2) else (acc.1, acc.2 ++ [node])
      else acc)
    ([], [])

/-- Python `max(iterable, default=None, key=lambda node: node.idle_time)`:
the running maximum is replaced only by a strictly larger key, so the first
node attaining the maximum wins. -/
def pyMaxByIdleTime (l : List SlurmNode) : Option SlurmNode :=
  l.foldl
    (fun acc n =>
      match acc with
      | none => some n
      | some m => if m.idle_time < n.idle_time then some n else some m)
    none

/-- `ClusterEventPublisher._get_max_idle_times`. -/
def _get_max_idle_times (nodes : List SlurmNode) : List Value :=
  let idle_dynamic_nodes := (idlePartition nodes).1
  let idle_static_nodes := (idlePartition nodes).2
  [.obj [("detail", .obj [
    ("dynamic", _format_node_idle_time (pyMaxByIdleTime idle_dynamic_nodes) idle_dynamic_nodes),
    ("static", _format_node_idle_time (pyMaxByIdleTime idle_static_nodes) idle_static_nodes)])]]

/-- `ClusterEventPublisher._flatten_partition_failure_counts`. -/
def _flatten_partition_failure_counts
    (partitions_failure_count_map : List (String × List (String × Int))) : List Value :=
  partitions_failure_count_map.flatMap (fun pr =>
    pr.2.map (fun rc =>
      .obj [("detail", .obj [("partition", .str pr.1), ("resource", .str rc.1),
                             ("count", .num rc.2)])]))

/-- `ClusterEventPublisher._flatten_failed_launch_nodes`. -/
def _flatten_failed_launch_nodes (failed_nodes : List (String × List String)) : List Value :=
  failed_nodes.flatMap (fun pr =>
    pr.2.map (fun node_name =>
      .obj [("detail", .obj [
        ("error-code", .str pr.1),
        ("failure-type", .str (_get_failure_type_from_error_code pr.1)),
        ("node", .obj [("name", .str node_name)])])]))

/-! ## `_get_launch_failure_details`

The source keeps the `detail_map` as a dict from category to ONE flat bucket
dict per category, whose `"count"` key lives alongside the error-code keys
that `error_entry.update({"count": ..., error_code: list(nodes)})` inserts.
The flat model below embeds exactly that, including the two consequences of
an error code literally named `"count"`: the duplicate-key dict literal lets
the node list overwrite the bucket count, and a later code classified into
the same bucket raises `TypeError` when the source adds `len(nodes)` to the
clobbered (list-valued) count. -/

/-- The running `total_failures` accumulator. -/
def totalLaunchFailures (failed_nodes : List (String × List String)) : Nat :=
  failed_nodes.foldl (fun t pr => t + pr.2.length) 0

/-- Python `d.get(k)` on a flat string-keyed dict. -/
def pyDictGet : List (String × Value) → String → Option Value
  | [], _ => none
  | p :: rest, k => if p.1 = k then some p.2 else pyDictGet rest k

/-- Python `d[k] = v`: replace the value in place when the key is present,
append otherwise. -/
def pyDictSet : List (String × Value) → String → Value → List (String × Value)
  | [], k, v => [(k, v)]
  | p :: rest, k, v => if p.1 = k then (p.1, v) :: rest else p :: pyDictSet rest k v

/-- Python `d.update(u)`: set every key of `u` in order. -/
def pyDictUpdate (d : List (String × Value)) (u : List (String × Value)) :
    List (String × Value) :=
  u.foldl (fun d p => pyDictSet d p.1 p.2) d

/-- The two-entry Python dict literal `{k1: v1, k2: v2}`: both values are
evaluated, and with equal keys a single entry results, the later value
winning. -/
def pyDictLiteral2 (k1 : String) (v1 : Value) (k2 : String) (v2 : Value) :
    List (String × Value) :=
  if k1 = k2 then [(k1, v2)] else [(k1, v1), (k2, v2)]

/-- Python `error_entry.get("count") + len(nodes)`: defined only when the
current value is a number; `None + int` and `list + int` raise `TypeError`. -/
def pyAddLen : Option Value → Nat → Except String Int
  | some (Value.num n), len => .ok (n + (len : Int))
  | _, _ => .error "TypeError: unsupported operand types"

/-- One iteration of the `for error_code, nodes in failed_nodes.items()`
loop on the detail map as the source keeps it. `detail_map.get(failure_type)`
finds the bucket in place (a missing bucket would be the source raising
`AttributeError` on `None.update`, unreachable because the classification is
total onto the initialized keys); the update first evaluates
`error_entry.get("count") + len(nodes)` — a `TypeError` when a previous code
named `"count"` replaced the count by a list — and then applies the
duplicate-key-collapsed two-entry literal to the bucket, so an `error_code`
equal to `"count"` overwrites the bucket count with the node list. -/
def flatBucketAdd (error_code : String) (nodes : List String) :
    List (String × List (String × Value)) →
    Except String (List (String × List (String × Value)))
  | [] => .error "AttributeError: NoneType has no attribute update"
  | (k, bucket) :: rest =>
    if k = _get_failure_type_from_error_code error_code then do
      let newcount ← pyAddLen (pyDictGet bucket "count") nodes.length
      .ok ((k, pyDictUpdate bucket
        (pyDictLiteral2 "count" (Value.num newcount)
          error_code (Value.arr (nodes.map Value.str)))) :: rest)
    else do
      let rest2 ← flatBucketAdd error_code nodes rest
      .ok ((k, bucket) :: rest2)

/-- The `detail_map` after its initialization:
`{"other-failures": {"count": 0}}` then `setdefault` for every value
of `LAUNCH_FAILURE_GROUPING`. -/
def flatDetailMapInit : List (String × List (String × Value)) :=
  LAUNCH_FAILURE_GROUPING.foldl
    (fun m p =>
      if m.any (fun q => q.1 = p.2) then m
      else m ++ [(p.2, [("count", Value.num 0)])])
    [("other-failures", [("count", Value.num 0)])]

/-- The fully accumulated `detail_map` (without the final `"total"` key);
materializing the generator surfaces any `TypeError` raised mid-loop. -/
def flatBuildDetailMap (failed_nodes : List (String × List String)) :
    Except String (List (String × List (String × Value))) :=
  failed_nodes.foldlM (fun m pr => flatBucketAdd pr.1 pr.2 m) flatDetailMapInit

/-- The single `{"detail": detail_map}` payload the generator yields on
success, with the `"total"` key appended last. -/
def flatLaunchFailureDetails (failed_nodes : List (String × List String)) :
    Except String (List Value) := do
  let m ← flatBuildDetailMap failed_nodes
  .ok [Value.obj [("detail", Value.obj
    ((m.map (fun p => (p.1, Value.obj p.2)))
      ++ [("total", Value.num (totalLaunchFailures failed_nodes))]))]]

/-- Observer: a bucket's `"count"` value when it is (still) a number. -/
def bucketCountNum (b : List (String × Value)) : Option Int :=
  match pyDictGet b "count" with
  | some (Value.num n) => some n
  | _ => none

/-- Observer: the sum of the per-category `"count"` values, defined only
when every bucket count is a number. -/
def flatSumCounts (m : List (String × List (String × Value))) : Option Int :=
  m.foldr
    (fun p acc =>
      match bucketCountNum p.2, acc with
      | some n, some t => some (n + t)
      | _, _ => none)
    (some 0)

/-! ### Split rendering of the buckets for the event payloads

The definitions below render each bucket with the `"count"` key held apart
from the error-code keys. This coincides with the flat bucket above exactly
as long as no error code is literally named `"count"` (see `flatBucketAdd`
for what the source does in that corner); it is used only to spell out the
`event_supplier` payloads of the publish-method models, whose theorems never
inspect this payload. The counting properties of the roll-up are settled
against the flat model above. -/

/-- Split rendering of one bucket: the `"count"` key apart from the
`error_code → [node names]` keys, in insertion order. -/
structure FailureEntry where
  count : Nat
  codes : List (String × List String)

/-- Python `dict.setdefault(k, v)` on the association-list model. -/
def pySetdefault (m : List (String × FailureEntry)) (k : String) (v : FailureEntry) :
    List (String × FailureEntry) :=
  if m.any (fun p => p.1 = k) then m else m ++ [(k, v)]

/-- The update of the bucket's code keys: replace in place when present,
append otherwise. -/
def pyUpdateCodes (codes : List (String × List String)) (k : String) (v : List String) :
    List (String × List String) :=
  if codes.any (fun p => p.1 = k) then
    codes.map (fun p => if p.1 = k then (k, v) else p)
  else codes ++ [(k, v)]

/-- The initialized detail map in split rendering. -/
def detailMapInit : List (String × FailureEntry) :=
  LAUNCH_FAILURE_GROUPING.foldl (fun m p => pySetdefault m p.2 ⟨0, []⟩)
    [("other-failures", ⟨0, []⟩)]

/-- One loop iteration in split rendering (valid only while no error code is
named `"count"`). -/
def detailMapAdd (m : List (String × FailureEntry)) (error_code : String)
    (nodes : List String) : List (String × FailureEntry) :=
  m.map (fun p =>
    if p.1 = _get_failure_type_from_error_code error_code then
      (p.1, ⟨p.2.count + nodes.length, pyUpdateCodes p.2.codes error_code nodes⟩)
    else p)

/-- The accumulated detail map in split rendering. -/
def buildDetailMap (failed_nodes : List (String × List String)) :
    List (String × FailureEntry) :=
  failed_nodes.foldl (fun m pr => detailMapAdd m pr.1 pr.2) detailMapInit

/-- Rendering of one split bucket as the event payload dict. -/
def FailureEntry.toValue (e : FailureEntry) : Value :=
  .obj ([("count", .num e.count)]
    ++ e.codes.map (fun pr => (pr.1, Value.arr (pr.2.map Value.str))))

/-- The supplier payload of the `node-launch-failure-count` events in the
publish-method models, in split rendering (see the note above; the faithful
fallible materialization is `flatLaunchFailureDetails`). -/
def _get_launch_failure_details (failed_nodes : List (String × List String)) : List Value :=
  [.obj [("detail", .obj
    ((buildDetailMap failed_nodes).map (fun p => (p.1, p.2.toValue))
      ++ [("total", .num (totalLaunchFailures failed_nodes))]))]]

/-! ## Public publish methods

Each `publish_*` method is modelled as the list of sink invocations it makes.
The impure `ClusterEventPublisher.timestamp()` value computed at method entry
is passed in as an explicit `timestamp` argument (`publish_unhealthy_static_node_events`
calls `timestamp()` twice, so it takes two). The two suspend methods call
`_expand_slurm_node_spec`, whose parse failures make the materialization of
the whole call list fail, hence their `Except` result type. -/

/-- Wrapper payload `{"detail": {"node": node.description()}}`. -/
def nodeDescDetail (node : SlurmNode) : Value :=
  .obj [("detail", .obj [("node", node.description)])]

/-- Payload element `{"name": node.name}`. -/
def nodeNameObj (node : SlurmNode) : Value :=
  .obj [("name", .str node.name)]

/-- `ClusterEventPublisher.publish_cluster_node_events`. -/
def publish_cluster_node_events (_self : ClusterEventPublisher) (timestamp : String)
    (cluster_nodes : List SlurmNode) : List SinkCall :=
  [{ level := "INFO", message := "Node State Counts", event_type := "node-state-count",
     timestamp := some timestamp, detail := none,
     event_supplier := some (_count_cluster_states cluster_nodes) },
   { level := "INFO", message := "Idle node times", event_type := "idle-node-time",
     timestamp := some timestamp, detail := none,
     event_supplier := some (_get_max_idle_times cluster_nodes) },
   { level := "DEBUG", message := "Node Info", event_type := "node-info",
     timestamp := some timestamp, detail := none,
     event_supplier := some (cluster_nodes.map nodeDescDetail) }]

/-- `ClusterEventPublisher.publish_powering_down_node_events`. -/
def publish_powering_down_node_events (_self : ClusterEventPublisher) (timestamp : String)
    (powering_down_nodes : List SlurmNode) : List SinkCall :=
  [{ level := if powering_down_nodes.isEmpty then "DEBUG" else "INFO",
     message := "Powering down node count", event_type := "node-powering-down-count",
     timestamp := some timestamp,
     detail := some (.obj [("count", .num powering_down_nodes.length),
       ("nodes", .arr (powering_down_nodes.map nodeNameObj))]),
     event_supplier := none },
   { level := "DEBUG", message := "Powering down node", event_type := "node-powering-down",
     timestamp := some timestamp, detail := none,
     event_supplier := some (powering_down_nodes.map nodeDescDetail) }]

/-- `ClusterEventPublisher.publish_unhealthy_dynamic_node_events`. -/
def publish_unhealthy_dynamic_node_events (_self : ClusterEventPublisher) (timestamp : String)
    (unhealthy_dynamic_nodes : List SlurmNode) (instances_to_terminate : List String)
    (power_down_nodes : List String) : List SinkCall :=
  [{ level := if unhealthy_dynamic_nodes.isEmpty then "DEBUG" else "WARNING",
     message := "Number of dynamic nodes failing scheduler health check",
     event_type := "dynamic-node-health-check-failure-count",
     timestamp := some timestamp,
     detail := some (.obj [("count", .num unhealthy_dynamic_nodes.length),
       ("nodes", .arr (unhealthy_dynamic_nodes.map nodeNameObj))]),
     event_supplier := none },
   { level := "DEBUG", message := "Dynamic node failing scheduler health check",
     event_type := "dynamic-node-health-check-failure",
     timestamp := some timestamp, detail := none,
     event_supplier := some (unhealthy_dynamic_nodes.map nodeDescDetail) },
   { level := if instances_to_terminate.isEmpty then "DEBUG" else "INFO",
     message := "Number of instances being terminating due to backing unhealthy dynamic nodes",
     event_type := "dynamic-node-failure-instance-terminate-count",
     timestamp := some timestamp,
     detail := some (.obj [("count", .num instances_to_terminate.length),
       ("instances", .arr (instances_to_terminate.map (fun instance_id =>
         .obj [("id", .str instance_id)])))]),
     event_supplier := none },
   { level := if power_down_nodes.isEmpty then "DEBUG" else "INFO",
     message := "Number of unhealthy dynamic nodes set to down and power_down",
     event_type := "dynamic-node-failure-power-down-count",
     timestamp := some timestamp,
     detail := some (.obj [("count", .num power_down_nodes.length),
       ("nodes", .arr (power_down_nodes.map (fun node_name =>
         .obj [("name", .str node_name)])))]),
     event_supplier := none }]

/-- Element of the `terminated_instances_supplier` payload of
`publish_unhealthy_static_node_events` (one per unhealthy static node with a
backing instance). -/
def terminatedInstanceNodeObj (node : SlurmNode) : Value :=
  .obj [("name", .str node.name),
        ("id", match node.«instance» with
          | some inst => .str inst.id
          | none => .null),
        ("ip", match node.«instance» with
          | some inst => .str inst.private_ip
          | none => .null),
        ("error-code", optStr node.error_code),
        ("reason", optStr node.reason)]

/-- `ClusterEventPublisher.publish_unhealthy_static_node_events`. The source
assigns `timestamp = ClusterEventPublisher.timestamp()` twice (lines 163 and
183); the value of the first call is dead and only the second is used. -/
def publish_unhealthy_static_node_events (_self : ClusterEventPublisher)
    (_timestamp1 timestamp2 : String)
    (unhealthy_static_nodes : List SlurmNode) (instances_to_terminate : List String)
    (successful_nodes : List (String × InstanceRec)) (nodes_in_replacement : List String)
    (failed_nodes : List (String × List String)) : List SinkCall :=
  [{ level := if unhealthy_static_nodes.isEmpty then "DEGUG" else "INFO",
     message := "Number of static nodes failing scheduler health check",
     event_type := "static-node-health-check-failure-count",
     timestamp := some timestamp2,
     detail := some (.obj [("count", .num unhealthy_static_nodes.length),
       ("nodes", .arr (unhealthy_static_nodes.map nodeNameObj))]),
     event_supplier := none },
   { level := "DEBUG", message := "Static node failing scheduler health check",
     event_type := "static-node-health-check-failure",
     timestamp := some timestamp2, detail := none,
     event_supplier := some (unhealthy_static_nodes.map nodeDescDetail) },
   { level := if instances_to_terminate.isEmpty then "DEBUG" else "INFO",
     message := "Terminated instances backing unhealthy nodes",
     event_type := "static-node-failure-instance-terminate-count",
     timestamp := some timestamp2, detail := none,
     event_supplier := some
       [Value.obj
         [("detail", Value.obj
           [("count", Value.num instances_to_terminate.length),
            ("nodes", Value.arr
              ((unhealthy_static_nodes.filter
                  (fun node => node.«instance».isSome)).map
                terminatedInstanceNodeObj))])]] },
   { level := "INFO", message := "Number of successfully launched static nodes",
     event_type := "successful-node-launch-count",
     timestamp := some timestamp2, detail := none,
     event_supplier := some (_successful_node_launch_supplier successful_nodes) },
   { level := "DEBUG", message := "Successfully launched static node",
     event_type := "successful-node-launch",
     timestamp := some timestamp2, detail := none,
     event_supplier := some (successful_nodes.map (fun p =>
       .obj [("detail", .obj [("node", .obj [("name", .str p.1)]),
                              ("instance", p.2.description)])])) },
   { level := if nodes_in_replacement.isEmpty then "DEBUG" else "INFO",
     message := "After node maintenance, nodes currently in replacement",
     event_type := "static-nodes-in-replacement-count",
     timestamp := some timestamp2,
     detail := some (.obj [("count", .num nodes_in_replacement.length),
       ("nodes", .arr (nodes_in_replacement.map (fun node_name =>
         .obj [("name", .str node_name)])))]),
     event_supplier := none },
   { level := "DEBUG", message := "After node maintenance, node currently in replacement",
     event_type := "static-node-in-replacement",
     timestamp := some timestamp2, detail := none,
     event_supplier := some ((unhealthy_static_nodes.filter
        (fun node => node.name ∈ nodes_in_replacement)).map nodeDescDetail) },
   { level := if failed_nodes.isEmpty then "DEBUG" else "WARNING",
     message := "Number of static nodes that failed replacement after node maintenance",
     event_type := "node-launch-failure-count",
     timestamp := some timestamp2, detail := none,
     event_supplier := some (_get_launch_failure_details failed_nodes) }]
  ++ failed_nodes.map (fun pr =>
    { level := "DEBUG", message := "After node maintenance, node failed replacement",
      event_type := "node-launch-failure",
      timestamp := some timestamp2, detail := none,
      event_supplier := some ((unhealthy_static_nodes.filter
          (fun node => node.name ∈ pr.2)).map (fun node =>
        .obj [("detail", .obj [
          ("node", node.description),
          ("error-code", .str pr.1),
          ("failure-type", .str (_get_failure_type_from_error_code pr.1))])])) })

/-- `ClusterEventPublisher.publish_orphaned_instance_events`. -/
def publish_orphaned_instance_events (_self : ClusterEventPublisher) (timestamp : String)
    (cluster_instances : List InstanceRec) (instances_to_terminate : List String) :
    List SinkCall :=
  [{ level := if instances_to_terminate.isEmpty then "DEBUG" else "WARNING",
     message := "Orphaned instance count", event_type := "orphaned-instance-count",
     timestamp := some timestamp,
     detail := some (.obj [("count", .num instances_to_terminate.length),
       ("instances", .arr ((cluster_instances.filter
           (fun inst => inst.id ∈ instances_to_terminate)).map (fun inst =>
         .obj [("id", .str inst.id)])))]),
     event_supplier := none },
   { level := "DEBUG", message := "Orphaned instance",
     event_type := "terminating-orphaned-instance",
     timestamp := some timestamp, detail := none,
     event_supplier := some ((cluster_instances.filter
        (fun inst => inst.id ∈ instances_to_terminate)).map (fun inst =>
       .obj [("detail", .obj [("instance", inst.description)])])) }]

/-- `ClusterEventPublisher.publish_entering_protected_mode_events`. -/
def publish_entering_protected_mode_events (_self : ClusterEventPublisher)
    (timestamp : String)
    (partitions_protected_failure_count_map : List (String × List (String × Int))) :
    List SinkCall :=
  [{ level := "WARNING",
     message := "Setting cluster into protected mode due to failures detected in node provisioning. Please investigate the issue and then use \x27pcluster update-compute-fleet --status START_REQUESTED\x27 command to re-enable the fleet.",
     event_type := "cluster-entering-protected-mode",
     timestamp := some timestamp,
     detail := some (.obj [("partition_failures",
       .obj (partitions_protected_failure_count_map.map (fun pr =>
         (pr.1, Value.obj (pr.2.map (fun rc => (rc.1, Value.num rc.2)))))))]),
     event_supplier := none },
   { level := "DEBUG", message := "Partition compute resource failure count",
     event_type := "partition-compute-resource-failure-count",
     timestamp := some timestamp, detail := none,
     event_supplier := some
       (_flatten_partition_failure_counts partitions_protected_failure_count_map) }]

/-- `ClusterEventPublisher.publish_nodes_failing_health_check_events` (the
`"Seting"` typo is the source's). -/
def publish_nodes_failing_health_check_events (_self : ClusterEventPublisher)
    (timestamp : String) (health_check_type : String)
    (nodes_failing_health_check : List SlurmNode) (rebooting_nodes : List SlurmNode) :
    List SinkCall :=
  [{ level := if nodes_failing_health_check.isEmpty then "DEBUG" else "WARNING",
     message := "Seting nodes failing " ++ health_check_type ++ " to DRAIN",
     event_type := "node-failed-health-check-count",
     timestamp := some timestamp,
     detail := some (.obj [("health-check-type", .str health_check_type),
       ("count", .num nodes_failing_health_check.length),
       ("nodes", .arr (nodes_failing_health_check.map nodeNameObj))]),
     event_supplier := none },
   { level := if rebooting_nodes.isEmpty then "DEBUG" else "INFO",
     message := "Ignoring recently rebooted nodes failing " ++ health_check_type,
     event_type := "rebooted-nodes-count",
     timestamp := some timestamp,
     detail := some (.obj [("health-check-type", .str health_check_type),
       ("count", .num rebooting_nodes.length),
       ("nodes", .arr (rebooting_nodes.map nodeNameObj))]),
     event_supplier := none },
   { level := "DEBUG",
     message := "Node failing " ++ health_check_type ++ ", setting to DRAIN",
     event_type := "node-failed-health-check",
     timestamp := some timestamp, detail := none,
     event_supplier := some (nodes_failing_health_check.map (fun node =>
       .obj [("detail", .obj [("health-check-type", .str health_check_type),
                              ("node", node.description)])])) }]

/-- `ClusterEventPublisher.publish_failed_health_check_nodes_in_replacement`. -/
def publish_failed_health_check_nodes_in_replacement (_self : ClusterEventPublisher)
    (timestamp : String) (nodes_in_replacement : List SlurmNode) : List SinkCall :=
  [{ level := if nodes_in_replacement.isEmpty then "DEBUG" else "WARNING",
     message := "Number of static nodes in replacement that failed health checks - will attempt to replace these nodes again immediately",
     event_type := "static-node-replacement-failure-count",
     timestamp := some timestamp,
     detail := some (.obj [("count", .num nodes_in_replacement.length),
       ("nodes", .arr (nodes_in_replacement.map nodeNameObj))]),
     event_supplier := none },
   { level := "DEBUG",
     message := "Detected failed health check for static node in replacement - will attempt to replace node again immediately",
     event_type := "static-node-replacement-health-check-failure",
     timestamp := some timestamp, detail := none,
     event_supplier := some (nodes_in_replacement.map nodeDescDetail) }]

/-- Element of the `supply_nodes` payload of
`publish_handle_powering_down_nodes_events`. -/
def poweringDownNodeObj (node : SlurmNode) : Value :=
  .obj [("name", .str node.name),
        ("id", match node.«instance» with
          | some inst => .str inst.id
          | none => .null)]

/-- `ClusterEventPublisher.publish_handle_powering_down_nodes_events`. -/
def publish_handle_powering_down_nodes_events (_self : ClusterEventPublisher)
    (timestamp : String) (powering_down_nodes : List SlurmNode)
    (instances_to_terminate : List String) : List SinkCall :=
  [{ level := if instances_to_terminate.isEmpty then "DEBUG" else "INFO",
     message := "Terminating instances that are backing powering down nodes",
     event_type := "node-powering-down-instance-count",
     timestamp := some timestamp, detail := none,
     event_supplier := some
       [Value.obj
         [("detail", Value.obj
           [("count", Value.num instances_to_terminate.length),
            ("nodes", Value.arr
              ((powering_down_nodes.filter (fun node =>
                  node.«instance».any (fun inst =>
                    decide (inst.id ∈ instances_to_terminate)))).map
                poweringDownNodeObj))])]] },
   { level := "DEBUG",
     message := "Terminating instance that is backing powering down node",
     event_type := "node-powering-down-instance",
     timestamp := some timestamp, detail := none,
     event_supplier := some ((powering_down_nodes.filter (fun node =>
        node.«instance».any (fun inst =>
          decide (inst.id ∈ instances_to_terminate)))).map
       nodeDescDetail) }]

/-- `ClusterEventPublisher.publish_add_instance_for_nodes_success_events`. -/
def publish_add_instance_for_nodes_success_events (_self : ClusterEventPublisher)
    (timestamp : String) (successful_nodes : List (String × InstanceRec)) : List SinkCall :=
  [{ level := "DEBUG", message := "Successfully launched node batch",
     event_type := "successful-node-launch-batch-count",
     timestamp := some timestamp, detail := none,
     event_supplier := some (_successful_node_launch_supplier successful_nodes) }]

/-- `ClusterEventPublisher.publish_add_instance_for_nodes_failure_events`. -/
def publish_add_instance_for_nodes_failure_events (_self : ClusterEventPublisher)
    (timestamp : String) (error_code : String) (error_message : String)
    (failed_nodes : List String) : List SinkCall :=
  [{ level := "INFO", message := "Failed to launch a batch of nodes",
     event_type := "batch-node-launch-failure-count",
     timestamp := some timestamp, detail := none,
     event_supplier := some
       [Value.obj
         [("detail", Value.obj
           [("count", Value.num (if failed_nodes.isEmpty then 0 else failed_nodes.length)),
            ("error-code", Value.str error_code),
            ("error-message", Value.str error_message),
            ("nodes", Value.arr (failed_nodes.map (fun node =>
              Value.obj [("name", Value.str node)])))])]] }]

/-- `ClusterEventPublisher.publish_node_launch_events`. -/
def publish_node_launch_events (_self : ClusterEventPublisher) (timestamp : String)
    (successful_nodes : List (String × InstanceRec))
    (failed_nodes : List (String × List String)) : List SinkCall :=
  [{ level := if failed_nodes.isEmpty then "DEBUG" else "WARNING",
     message := "Number of nodes that failed to launch",
     event_type := "node-launch-failure-count",
     timestamp := some timestamp, detail := none,
     event_supplier := some (_get_launch_failure_details failed_nodes) },
   { level := "INFO", message := "Number of successfully launched nodes",
     event_type := "successful-node-launch-count",
     timestamp := some timestamp, detail := none,
     event_supplier := some (_successful_node_launch_supplier successful_nodes) },
   { level := "DEBUG", message := "Setting failed node to DOWN state",
     event_type := "node-launch-failure",
     timestamp := some timestamp, detail := none,
     event_supplier := some (_flatten_failed_launch_nodes failed_nodes) },
   { level := "DEBUG", message := "Successfully Launched Node",
     event_type := "successful-node-launch",
     timestamp := some timestamp, detail := none,
     event_supplier := some (successful_nodes.map (fun p =>
       .obj [("detail", .obj [("node", .obj [("name", .str p.1)]),
                              ("instance", p.2.description)])])) }]

/-- `ClusterEventPublisher.publish_suspend_events`: no timestamp keyword is
passed to the sink; the supplier materializes `_expand_slurm_node_spec`. -/
def publish_suspend_events (_self : ClusterEventPublisher) (slurm_node_spec : String) :
    Except String (List SinkCall) := do
  let nodes ← _expand_slurm_node_spec slurm_node_spec
  .ok [{ level := "DEBUG", message := "Node Suspended", event_type := "suspend-node",
         timestamp := none, detail := none,
         event_supplier := some [.obj [("detail",
           .obj [("nodes", .arr (nodes.map Value.str))])]] }]

/-- `ClusterEventPublisher.publish_suspend_error_events`: no timestamp
keyword is passed to the sink. -/
def publish_suspend_error_events (_self : ClusterEventPublisher) (error_message : String)
    (slurm_node_spec : String) : Except String (List SinkCall) := do
  let nodes ← _expand_slurm_node_spec slurm_node_spec
  .ok [{ level := "ERROR", message := error_message, event_type := "suspend-error",
         timestamp := none, detail := none,
         event_supplier := some [.obj [("detail",
           .obj [("nodes", .arr (nodes.map Value.str))])]] }]

/-! ## The exception guard around every public method -/

/-- Modelled from the spec: the `log_exception` decorator from
`slurm_plugin.common` (not among the sources) with
`catch_exception=Exception`; per §4.1/§7 it catches any exception escaping
the wrapped method, logs it, and re-raises only when `raise_on_error` is
true. Every public `ClusterEventPublisher` method is decorated with
`raise_on_error=False`. -/
def log_exception (raise_on_error : Bool) (r : Except String Unit) : Except String Unit :=
  match r with
  | .ok u => .ok u
  | .error e => if raise_on_error then .error e else .ok ()

/-- Run a publish method against an injected sink that may itself raise:
first the calls are materialized (building them can raise, e.g. a hostlist
parse failure), then each one is handed to the sink in order. -/
def runPublish (sink : SinkCall → Except String Unit)
    (calls : Except String (List SinkCall)) : Except String Unit := do
  let cs ← calls
  cs.forM sink

/-! ## Spec-level model of the hostlist grammar (for the refinement claim)

Modelled from the spec's words (§4.4): `spec := element (',' element)*`;
`element := bracketed | plain`; `bracketed := base_name '[' range_list ']'`;
`range_list := range (',' range)*`; `range := NUMBER | NUMBER '-' NUMBER`.
These definitions describe the spec's grammar and its Cartesian expansion and
are compared against `_expand_slurm_node_spec`, which is translated from the
source. -/

/-- A range token of the grammar: a single number or an inclusive pair. -/
inductive RangeTok where
  | single (n : Nat)
  | pair (a b : Nat)

/-- An element of the grammar: a plain name or a bracketed base name. -/
inductive HostElem where
  | plain (name : String)
  | bracketed (base : String) (ranges : List RangeTok)

/-- Decimal string of a natural number (shared numeral rendering). -/
def natStr (n : Nat) : String := (natDigits n).asString

/-- Render one range token back to its concrete syntax. -/
def rangeRender : RangeTok → List Char
  | .single n => natDigits n
  | .pair a b => natDigits a ++ '-' :: natDigits b

/-- Render one element back to its concrete syntax. -/
def elemRender : HostElem → List Char
  | .plain name => name.data
  | .bracketed base ranges =>
    base.data ++ '[' :: (rangeBodyRender ranges) ++ [']']
where
  /-- The comma-separated bracket body. -/
  rangeBodyRender : List RangeTok → List Char
    | [] => []
    | [r] => rangeRender r
    | r :: rs => rangeRender r ++ ',' :: rangeBodyRender rs

/-- Render a whole hostlist spec back to its concrete syntax. -/
def hostListRender : List HostElem → List Char
  | [] => []
  | [e] => elemRender e
  | e :: es => elemRender e ++ ',' :: hostListRender es

/-- The names denoted by one range token against a base name, in ascending
order (the spec's Cartesian expansion of `start..end` inclusive). -/
def rangeDenote (base : String) : RangeTok → List String
  | .single n => [base ++ natStr n]
  | .pair a b => (List.range' a (b + 1 - a)).map (fun k => base ++ natStr k)

/-- The names denoted by one element. -/
def elemDenote : HostElem → List String
  | .plain name => [name]
  | .bracketed base ranges => ranges.flatMap (rangeDenote base)

/-- The ordered sequence of names a well-formed hostlist spec denotes. -/
def hostListDenote (l : List HostElem) : List String :=
  l.flatMap elemDenote

/-- A name usable as a plain name or base name: nonempty, and free of the
grammar's meta characters and of whitespace. -/
def goodName (s : String) : Prop :=
  s.data ≠ [] ∧ ∀ c ∈ s.data, c ≠ '[' ∧ c ≠ ']' ∧ c ≠ ',' ∧ ¬c.isWhitespace

/-- A range token is well-formed when a pair is ascending (`start ≤ end`). -/
def rangeWF : RangeTok → Prop
  | .single _ => True
  | .pair a b => a ≤ b

/-- Well-formedness of an element: names are good, bracketed range lists are
nonempty and every pair is ascending (`start ≤ end`). -/
def elemWF : HostElem → Prop
  | .plain name => goodName name
  | .bracketed base ranges =>
    goodName base ∧ ranges ≠ [] ∧ ∀ r ∈ ranges, rangeWF r

/-- Well-formedness of a whole spec. -/
def hostListWF (l : List HostElem) : Prop := ∀ e ∈ l, elemWF e

/-! # Theorems -/

/-! ## Generic `Except` bind reductions -/

theorem exceptOkBind {ε α β : Type} (a : α) (f : α → Except ε β) :
    (Except.ok (ε := ε) a >>= f) = f a := rfl

theorem exceptErrBind {ε α β : Type} (e : ε) (f : α → Except ε β) :
    (Except.error (α := α) e >>= f) = .error e := rfl

/-! ## Generic association-list lemmas -/

theorem lookup_mem_snd {α β : Type} [BEq α] [LawfulBEq α] :
    ∀ {l : List (α × β)} {k : α} {v : β}, l.lookup k = some v → v ∈ l.map Prod.snd := by
  intro l
  induction l with
  | nil => intro k v h; simp [List.lookup] at h
  | cons p rest ih =>
    intro k v h
    rw [List.lookup] at h
    by_cases hk : k == p.1
    · simp only [hk, if_pos] at h
      cases h
      simp
    · simp only [hk, Bool.false_eq_true, if_neg, if_false] at h
      simpa using Or.inr (ih h)

theorem lookup_eq_none_of_not_mem_fst {α β : Type} [BEq α] [LawfulBEq α] :
    ∀ {l : List (α × β)} {k : α}, k ∉ l.map Prod.fst → l.lookup k = none := by
  intro l
  induction l with
  | nil => intro k _; simp [List.lookup]
  | cons p rest ih =>
    intro k hk
    rw [List.lookup]
    simp only [List.map_cons, List.mem_cons] at hk
    push_neg at hk
    have h1 : (k == p.1) = false := by
      simp [hk.1]
    simp only [h1, if_false]
    exact ih hk.2

/-! ## C7 -/

/-- C7: failure classification is total — every error-code string is mapped
to exactly one of the six categories; `VcpuLimitExceeded` maps to
`vcpu-limit-failures`; `VolumeLimitExceeded` and `InsufficientVolumeCapacity`
map to `volume-limit-failures`; `InvalidBlockDeviceMapping` maps to
`custom-ami-errors`; `UnauthorizedOperation` and `AccessDeniedException` map
to `iam-policy-errors`; each of the six ICE-family codes maps to
`ice-failures`; and every string absent from the table maps to
`other-failures`. -/
theorem claim_C7_classification_total :
    (∀ code : String, _get_failure_type_from_error_code code ∈
      ["ice-failures", "vcpu-limit-failures", "volume-limit-failures",
       "custom-ami-errors", "iam-policy-errors", "other-failures"])
    ∧ _get_failure_type_from_error_code "VcpuLimitExceeded" = "vcpu-limit-failures"
    ∧ _get_failure_type_from_error_code "VolumeLimitExceeded" = "volume-limit-failures"
    ∧ _get_failure_type_from_error_code "InsufficientVolumeCapacity" = "volume-limit-failures"
    ∧ _get_failure_type_from_error_code "InvalidBlockDeviceMapping" = "custom-ami-errors"
    ∧ _get_failure_type_from_error_code "UnauthorizedOperation" = "iam-policy-errors"
    ∧ _get_failure_type_from_error_code "AccessDeniedException" = "iam-policy-errors"
    ∧ (∀ code ∈ EC2_ICE_ERROR_CODES, _get_failure_type_from_error_code code = "ice-failures")
    ∧ (∀ code : String, code ∉ LAUNCH_FAILURE_GROUPING.map Prod.fst →
        _get_failure_type_from_error_code code = "other-failures") := by
  refine ⟨?_, by decide, by decide, by decide, by decide, by decide, by decide, by decide, ?_⟩
  · intro code
    unfold _get_failure_type_from_error_code
    cases h : LAUNCH_FAILURE_GROUPING.lookup code with
    | none => simp
    | some v =>
      have hv := lookup_mem_snd h
      have hsub : ∀ x ∈ LAUNCH_FAILURE_GROUPING.map Prod.snd,
          x ∈ ["ice-failures", "vcpu-limit-failures", "volume-limit-failures",
               "custom-ami-errors", "iam-policy-errors", "other-failures"] := by decide
      simpa using hsub v hv
  · intro code hcode
    unfold _get_failure_type_from_error_code
    rw [lookup_eq_none_of_not_mem_fst hcode]
    rfl

/-- Witness for C7 at concrete inputs with its hypotheses discharged. -/
theorem claim_C7_classification_total_witness :
    _get_failure_type_from_error_code "InsufficientHostCapacity" = "ice-failures"
    ∧ _get_failure_type_from_error_code "SomeBrandNewErrorCode" = "other-failures" :=
  ⟨claim_C7_classification_total.2.2.2.2.2.2.2.1 "InsufficientHostCapacity" (by decide),
   claim_C7_classification_total.2.2.2.2.2.2.2.2 "SomeBrandNewErrorCode" (by decide)⟩

/-! ## C10 -/

/-- C10: `max_list_size` noninterference — the constructor parameter is
stored but never read by any publish method, so two publishers differing
only in `max_list_size` make identical sink invocations on every public
method, for every input; in particular no embedded node-name list is
truncated to `max_list_size` entries. -/
theorem claim_C10_max_list_size_noninterference :
    ∀ m1 m2 : Nat,
      (∀ ts ns, publish_cluster_node_events ⟨m1⟩ ts ns
        = publish_cluster_node_events ⟨m2⟩ ts ns)
      ∧ (∀ ts ns, publish_powering_down_node_events ⟨m1⟩ ts ns
        = publish_powering_down_node_events ⟨m2⟩ ts ns)
      ∧ (∀ ts ns its pdn, publish_unhealthy_dynamic_node_events ⟨m1⟩ ts ns its pdn
        = publish_unhealthy_dynamic_node_events ⟨m2⟩ ts ns its pdn)
      ∧ (∀ ts1 ts2 ns its sn nir fn,
        publish_unhealthy_static_node_events ⟨m1⟩ ts1 ts2 ns its sn nir fn
        = publish_unhealthy_static_node_events ⟨m2⟩ ts1 ts2 ns its sn nir fn)
      ∧ (∀ ts ci its, publish_orphaned_instance_events ⟨m1⟩ ts ci its
        = publish_orphaned_instance_events ⟨m2⟩ ts ci its)
      ∧ (∀ ts pm, publish_entering_protected_mode_events ⟨m1⟩ ts pm
        = publish_entering_protected_mode_events ⟨m2⟩ ts pm)
      ∧ (∀ ts hct nf rb, publish_nodes_failing_health_check_events ⟨m1⟩ ts hct nf rb
        = publish_nodes_failing_health_check_events ⟨m2⟩ ts hct nf rb)
      ∧ (∀ ts nir, publish_failed_health_check_nodes_in_replacement ⟨m1⟩ ts nir
        = publish_failed_health_check_nodes_in_replacement ⟨m2⟩ ts nir)
      ∧ (∀ ts pdn its, publish_handle_powering_down_nodes_events ⟨m1⟩ ts pdn its
        = publish_handle_powering_down_nodes_events ⟨m2⟩ ts pdn its)
      ∧ (∀ ts sn, publish_add_instance_for_nodes_success_events ⟨m1⟩ ts sn
        = publish_add_instance_for_nodes_success_events ⟨m2⟩ ts sn)
      ∧ (∀ ts ec em fn, publish_add_instance_for_nodes_failure_events ⟨m1⟩ ts ec em fn
        = publish_add_instance_for_nodes_failure_events ⟨m2⟩ ts ec em fn)
      ∧ (∀ ts sn fn, publish_node_launch_events ⟨m1⟩ ts sn fn
        = publish_node_launch_events ⟨m2⟩ ts sn fn)
      ∧ (∀ spec, publish_suspend_events ⟨m1⟩ spec = publish_suspend_events ⟨m2⟩ spec)
      ∧ (∀ em spec, publish_suspend_error_events ⟨m1⟩ em spec
        = publish_suspend_error_events ⟨m2⟩ em spec) :=
  fun _ _ =>
    ⟨fun _ _ => rfl, fun _ _ => rfl, fun _ _ _ _ => rfl,
     fun _ _ _ _ _ _ _ => rfl, fun _ _ _ => rfl, fun _ _ => rfl,
     fun _ _ _ _ => rfl, fun _ _ => rfl, fun _ _ _ => rfl,
     fun _ _ => rfl, fun _ _ _ _ => rfl, fun _ _ _ => rfl,
     fun _ => rfl, fun _ _ => rfl⟩

/-! ## C1 -/

theorem log_exception_no_raise (r : Except String Unit) :
    log_exception false r = .ok () := by
  unfold log_exception
  cases r with
  | ok u => rfl
  | error e => rfl

/-- C1: with `raise_on_error=False`, the `log_exception` guard wrapping
every public publish method swallows any exception raised while building or
emitting events, so every public method returns normally for every input
collection (including empty ones) and for every injected sink — including a
sink that raises on every call. -/
theorem claim_C1_publish_methods_never_raise :
    ∀ (sink : SinkCall → Except String Unit) (self : ClusterEventPublisher),
      (∀ ts ns, log_exception false
        (runPublish sink (.ok (publish_cluster_node_events self ts ns))) = .ok ())
      ∧ (∀ ts ns, log_exception false
        (runPublish sink (.ok (publish_powering_down_node_events self ts ns))) = .ok ())
      ∧ (∀ ts ns its pdn, log_exception false
        (runPublish sink (.ok (publish_unhealthy_dynamic_node_events self ts ns its pdn)))
          = .ok ())
      ∧ (∀ ts1 ts2 ns its sn nir fn, log_exception false
        (runPublish sink
          (.ok (publish_unhealthy_static_node_events self ts1 ts2 ns its sn nir fn)))
          = .ok ())
      ∧ (∀ ts ci its, log_exception false
        (runPublish sink (.ok (publish_orphaned_instance_events self ts ci its))) = .ok ())
      ∧ (∀ ts pm, log_exception false
        (runPublish sink (.ok (publish_entering_protected_mode_events self ts pm))) = .ok ())
      ∧ (∀ ts hct nf rb, log_exception false
        (runPublish sink
          (.ok (publish_nodes_failing_health_check_events self ts hct nf rb))) = .ok ())
      ∧ (∀ ts nir, log_exception false
        (runPublish sink
          (.ok (publish_failed_health_check_nodes_in_replacement self ts nir))) = .ok ())
      ∧ (∀ ts pdn its, log_exception false
        (runPublish sink
          (.ok (publish_handle_powering_down_nodes_events self ts pdn its))) = .ok ())
      ∧ (∀ ts sn, log_exception false
        (runPublish sink
          (.ok (publish_add_instance_for_nodes_success_events self ts sn))) = .ok ())
      ∧ (∀ ts ec em fn, log_exception false
        (runPublish sink
          (.ok (publish_add_instance_for_nodes_failure_events self ts ec em fn))) = .ok ())
      ∧ (∀ ts sn fn, log_exception false
        (runPublish sink (.ok (publish_node_launch_events self ts sn fn))) = .ok ())
      ∧ (∀ spec, log_exception false
        (runPublish sink (publish_suspend_events self spec)) = .ok ())
      ∧ (∀ em spec, log_exception false
        (runPublish sink (publish_suspend_error_events self em spec)) = .ok ()) :=
  fun sink self =>
    ⟨fun _ _ => log_exception_no_raise _, fun _ _ => log_exception_no_raise _,
     fun _ _ _ _ => log_exception_no_raise _,
     fun _ _ _ _ _ _ _ => log_exception_no_raise _,
     fun _ _ _ => log_exception_no_raise _, fun _ _ => log_exception_no_raise _,
     fun _ _ _ _ => log_exception_no_raise _, fun _ _ => log_exception_no_raise _,
     fun _ _ _ => log_exception_no_raise _, fun _ _ => log_exception_no_raise _,
     fun _ _ _ _ => log_exception_no_raise _, fun _ _ _ => log_exception_no_raise _,
     fun _ => log_exception_no_raise _, fun _ _ => log_exception_no_raise _⟩

/-! ## C5 -/

/-- C5 (code bug): `publish_unhealthy_static_node_events` called with an
empty `unhealthy_static_nodes` collection passes the misspelled level
`"DEGUG"` (source line 185) to the sink for its
`static-node-health-check-failure-count` summary event, which is not one of
the four valid levels `DEBUG`/`INFO`/`WARNING`/`ERROR` the claim requires. -/
theorem claim_C5_degug_level_emitted :
    (publish_unhealthy_static_node_events ⟨100⟩ "t1" "t2" [] [] [] [] []).map SinkCall.level
      = ["DEGUG", "DEBUG", "DEBUG", "INFO", "DEBUG", "DEBUG", "DEBUG", "DEBUG"]
    ∧ "DEGUG" ∉ ["DEBUG", "INFO", "WARNING", "ERROR"] := by
  exact ⟨rfl, by decide⟩

/-! ## C6 -/

theorem totalLaunchFailures_eq (failed_nodes : List (String × List String)) :
    totalLaunchFailures failed_nodes = (failed_nodes.map (fun pr => pr.2.length)).sum := by
  unfold totalLaunchFailures
  suffices h : ∀ (l : List (String × List String)) (t : Nat),
      l.foldl (fun t pr => t + pr.2.length) t = t + (l.map (fun pr => pr.2.length)).sum by
    simpa using h failed_nodes 0
  intro l
  induction l with
  | nil => intro t; simp
  | cons pr rest ih =>
    intro t
    simp only [List.foldl_cons, List.map_cons, List.sum_cons, ih]
    omega

theorem pyDictGet_set_same : ∀ (d : List (String × Value)) (k : String) (v : Value),
    pyDictGet (pyDictSet d k v) k = some v := by
  intro d k v
  induction d with
  | nil => simp [pyDictSet, pyDictGet]
  | cons p rest ih =>
    by_cases hp : p.1 = k
    · simp [pyDictSet, hp, pyDictGet]
    · simp [pyDictSet, hp, pyDictGet, ih]

theorem pyDictGet_set_other : ∀ (d : List (String × Value)) {k k2 : String} (v : Value),
    k ≠ k2 → pyDictGet (pyDictSet d k v) k2 = pyDictGet d k2 := by
  intro d k k2 v hk
  induction d with
  | nil => simp [pyDictSet, pyDictGet, hk]
  | cons p rest ih =>
    by_cases hp : p.1 = k
    · simp [pyDictSet, hp, pyDictGet, hk]
    · simp only [pyDictSet, hp, if_neg, if_false, pyDictGet]
      by_cases hp2 : p.1 = k2
      · simp [hp2]
      · simp [hp2, ih]

/-- Updating a bucket for an error code that is not named `"count"` leaves
the bucket count a number, set to the freshly computed value. -/
theorem bucketCountNum_after_update (bucket : List (String × Value)) (code : String)
    (hcode : code ≠ "count") (nc : Int) (a : Value) :
    bucketCountNum (pyDictUpdate bucket
      (pyDictLiteral2 "count" (Value.num nc) code a)) = some nc := by
  unfold pyDictLiteral2
  rw [if_neg (fun h => hcode h.symm)]
  unfold pyDictUpdate
  simp only [List.foldl_cons, List.foldl_nil]
  unfold bucketCountNum
  rw [pyDictGet_set_other _ _ (fun h => hcode h), pyDictGet_set_same]

theorem flatSumCounts_cons (p : String × List (String × Value))
    (rest : List (String × List (String × Value))) :
    flatSumCounts (p :: rest)
      = match bucketCountNum p.2, flatSumCounts rest with
        | some n, some t => some (n + t)
        | _, _ => none := rfl

/-- One loop iteration succeeds, preserves the bucket keys and adds exactly
`len(nodes)` to the summable counts, provided the error code is not named
`"count"` and its category bucket exists. -/
theorem flatBucketAdd_ok : ∀ (m : List (String × List (String × Value)))
    (code : String) (nodes : List String) (t : Int),
    code ≠ "count" →
    _get_failure_type_from_error_code code ∈ m.map Prod.fst →
    flatSumCounts m = some t →
    ∃ m2, flatBucketAdd code nodes m = .ok m2
      ∧ m2.map Prod.fst = m.map Prod.fst
      ∧ flatSumCounts m2 = some (t + (nodes.length : Int)) := by
  intro m
  induction m with
  | nil => intro code nodes t _ hmem _; simp at hmem
  | cons p rest ih =>
    obtain ⟨k, bucket⟩ := p
    intro code nodes t hcode hmem hsum
    rw [flatSumCounts_cons] at hsum
    cases hb : bucketCountNum bucket with
    | none => rw [hb] at hsum; cases hsum
    | some nb =>
      cases hr : flatSumCounts rest with
      | none => rw [hb, hr] at hsum; cases hsum
      | some tr =>
        rw [hb, hr] at hsum
        have ht : nb + tr = t := Option.some.inj hsum
        by_cases hk : k = _get_failure_type_from_error_code code
        · have hget : pyDictGet bucket "count" = some (Value.num nb) := by
            unfold bucketCountNum at hb
            cases hg : pyDictGet bucket "count" with
            | none => rw [hg] at hb; cases hb
            | some v =>
              rw [hg] at hb
              cases v with
              | num n => cases hb; rfl
              | str q => cases hb
              | null => cases hb
              | arr q => cases hb
              | obj q => cases hb
          refine ⟨(k, pyDictUpdate bucket
              (pyDictLiteral2 "count" (Value.num (nb + (nodes.length : Int)))
                code (Value.arr (nodes.map Value.str)))) :: rest, ?_, by simp, ?_⟩
          · unfold flatBucketAdd
            rw [if_pos hk, hget]
            rfl
          · rw [flatSumCounts_cons]
            simp only [bucketCountNum_after_update bucket code hcode, hr]
            congr 1
            omega
        · have hmem2 : _get_failure_type_from_error_code code ∈ rest.map Prod.fst := by
            simp only [List.map_cons, List.mem_cons] at hmem
            rcases hmem with heq | hmem
            · exact absurd heq.symm hk
            · exact hmem
          obtain ⟨rest2, hr2, hkeys2, hsum2⟩ := ih code nodes tr hcode hmem2 hr
          refine ⟨(k, bucket) :: rest2, ?_, by simp [hkeys2], ?_⟩
          · unfold flatBucketAdd
            rw [if_neg hk, hr2]
            rfl
          · rw [flatSumCounts_cons]
            simp only [hb, hsum2]
            congr 1
            omega

/-- One loop iteration never changes the category keys when it succeeds. -/
theorem flatBucketAdd_keys : ∀ (m m2 : List (String × List (String × Value)))
    (code : String) (nodes : List String),
    flatBucketAdd code nodes m = .ok m2 → m2.map Prod.fst = m.map Prod.fst := by
  intro m
  induction m with
  | nil =>
    intro m2 code nodes h
    unfold flatBucketAdd at h
    cases h
  | cons p rest ih =>
    obtain ⟨k, bucket⟩ := p
    intro m2 code nodes h
    unfold flatBucketAdd at h
    by_cases hk : k = _get_failure_type_from_error_code code
    · rw [if_pos hk] at h
      cases hadd : pyAddLen (pyDictGet bucket "count") nodes.length with
      | error e => rw [hadd, exceptErrBind] at h; cases h
      | ok nc =>
        rw [hadd, exceptOkBind] at h
        injection h with h1
        subst h1
        simp
    · rw [if_neg hk] at h
      cases hrest : flatBucketAdd code nodes rest with
      | error e => rw [hrest, exceptErrBind] at h; cases h
      | ok rest2 =>
        rw [hrest, exceptOkBind] at h
        injection h with h1
        subst h1
        simp [ih rest2 code nodes hrest]

theorem classification_mem_categories (c : String) :
    _get_failure_type_from_error_code c ∈
      ["other-failures", "ice-failures", "vcpu-limit-failures", "volume-limit-failures",
       "custom-ami-errors", "iam-policy-errors"] := by
  unfold _get_failure_type_from_error_code
  cases h : LAUNCH_FAILURE_GROUPING.lookup c with
  | none => simp
  | some v =>
    have hv := lookup_mem_snd h
    have hsub : ∀ x ∈ LAUNCH_FAILURE_GROUPING.map Prod.snd,
        x ∈ ["other-failures", "ice-failures", "vcpu-limit-failures",
             "volume-limit-failures", "custom-ami-errors", "iam-policy-errors"] := by decide
    simpa using hsub v hv

/-- The whole loop never changes the category keys when it succeeds. -/
theorem flatBuild_keys : ∀ (l : List (String × List String))
    (m m2 : List (String × List (String × Value))),
    l.foldlM (fun m pr => flatBucketAdd pr.1 pr.2 m) m = .ok m2 →
    m2.map Prod.fst = m.map Prod.fst := by
  intro l
  induction l with
  | nil =>
    intro m m2 h
    rw [List.foldlM_nil] at h
    injection h with h1
    rw [h1]
  | cons pr rest ih =>
    intro m m2 h
    rw [List.foldlM_cons] at h
    cases h0 : flatBucketAdd pr.1 pr.2 m with
    | error e => rw [h0, exceptErrBind] at h; cases h
    | ok m1 =>
      rw [h0, exceptOkBind] at h
      rw [ih m1 m2 h, flatBucketAdd_keys m m1 pr.1 pr.2 h0]

/-- The whole loop succeeds and adds `N` to the summable counts when no
error code is named `"count"` and the map carries the six category keys. -/
theorem flatBuild_ok : ∀ (l : List (String × List String))
    (m : List (String × List (String × Value))) (t : Int),
    (∀ pr ∈ l, pr.1 ≠ "count") →
    m.map Prod.fst
      = ["other-failures", "ice-failures", "vcpu-limit-failures",
         "volume-limit-failures", "custom-ami-errors", "iam-policy-errors"] →
    flatSumCounts m = some t →
    ∃ m2, l.foldlM (fun m pr => flatBucketAdd pr.1 pr.2 m) m = .ok m2
      ∧ m2.map Prod.fst = m.map Prod.fst
      ∧ flatSumCounts m2 = some (t + ((l.map (fun pr => pr.2.length)).sum : Int)) := by
  intro l
  induction l with
  | nil =>
    intro m t _ _ hsum
    refine ⟨m, List.foldlM_nil .., rfl, ?_⟩
    rw [hsum]
    congr 1
    simp
  | cons pr rest ih =>
    intro m t hnc hkeys hsum
    have hmem : _get_failure_type_from_error_code pr.1 ∈ m.map Prod.fst := by
      rw [hkeys]
      exact classification_mem_categories pr.1
    obtain ⟨m1, h1, hkeys1, hsum1⟩ :=
      flatBucketAdd_ok m pr.1 pr.2 t (hnc pr (by simp)) hmem hsum
    obtain ⟨m2, h2, hkeys2, hsum2⟩ := ih m1 (t + (pr.2.length : Int))
      (fun q hq => hnc q (by simp [hq])) (by rw [hkeys1, hkeys]) hsum1
    refine ⟨m2, ?_, by rw [hkeys2, hkeys1], ?_⟩
    · rw [List.foldlM_cons, h1, exceptOkBind, h2]
    · rw [hsum2]
      congr 1
      rw [List.map_cons, List.sum_cons]
      ring

/-- C6 (counterexample): the claim fails on the program for an error code
literally named `"count"`. With `failed_nodes = {"count": ["n1"]}` (N = 1)
the duplicate-key literal of `error_entry.update` lets the node list clobber
the `other-failures` bucket count, so the per-category counts are not even
numbers that could sum to `N`; and with a second code classified into the
same bucket the roll-up raises `TypeError` and builds no detail map at all. -/
theorem claim_C6_counterexample_count_code_clobbers :
    flatBuildDetailMap [("count", ["n1"])]
      = .ok [("other-failures", [("count", Value.arr [Value.str "n1"])]),
             ("ice-failures", [("count", Value.num 0)]),
             ("vcpu-limit-failures", [("count", Value.num 0)]),
             ("volume-limit-failures", [("count", Value.num 0)]),
             ("custom-ami-errors", [("count", Value.num 0)]),
             ("iam-policy-errors", [("count", Value.num 0)])]
    ∧ Except.map flatSumCounts (flatBuildDetailMap [("count", ["n1"])]) = .ok none
    ∧ totalLaunchFailures [("count", ["n1"])] = 1
    ∧ (∃ e, flatBuildDetailMap [("count", ["n1"]), ("AnotherUnknownCode", ["n2"])]
        = .error e) :=
  ⟨rfl, rfl, rfl, ⟨_, rfl⟩⟩

/-- C6 (amended): for every failed-nodes mapping the running `total` equals
the number `N` of node names; whenever the detail map is built without
raising, it holds exactly the six failure-category keys; and whenever no
error code is literally named `"count"`, the build succeeds and the
per-category counts are numbers summing to `N`. (An error code named
`"count"` makes the flat-dict update overwrite that bucket count with the
node list, and a second code in the same bucket raises `TypeError`.) -/
theorem claim_C6_amended_launch_failure_rollup_counts :
    ∀ failed_nodes : List (String × List String),
      totalLaunchFailures failed_nodes = (failed_nodes.map (fun pr => pr.2.length)).sum
      ∧ (∀ m, flatBuildDetailMap failed_nodes = .ok m →
          m.map Prod.fst
            = ["other-failures", "ice-failures", "vcpu-limit-failures",
               "volume-limit-failures", "custom-ami-errors", "iam-policy-errors"])
      ∧ ((∀ pr ∈ failed_nodes, pr.1 ≠ "count") →
          ∃ m, flatBuildDetailMap failed_nodes = .ok m
            ∧ flatSumCounts m
              = some (((failed_nodes.map (fun pr => pr.2.length)).sum : Int))) := by
  intro failed_nodes
  refine ⟨totalLaunchFailures_eq failed_nodes, ?_, ?_⟩
  · intro m hm
    unfold flatBuildDetailMap at hm
    rw [flatBuild_keys failed_nodes flatDetailMapInit m hm]
    decide
  · intro hnc
    obtain ⟨m, hm, -, hsum⟩ :=
      flatBuild_ok failed_nodes flatDetailMapInit 0 hnc (by decide) (by decide)
    refine ⟨m, hm, ?_⟩
    rw [hsum]
    congr 1
    omega

/-- Witness for C6's amended theorem: a two-code mapping with no code named
`"count"`, whose three node names are counted in full. -/
theorem claim_C6_amended_launch_failure_rollup_counts_witness :
    ∃ m, flatBuildDetailMap [("VcpuLimitExceeded", ["n1", "n2"]), ("UnknownCode", ["n3"])]
        = .ok m
      ∧ flatSumCounts m = some 3 := by
  obtain ⟨m, hm, hsum⟩ := (claim_C6_amended_launch_failure_rollup_counts
    [("VcpuLimitExceeded", ["n1", "n2"]), ("UnknownCode", ["n3"])]).2.2 (by decide)
  exact ⟨m, hm, by rw [hsum]; rfl⟩

/-! ## C8 -/

/-- The running-maximum scan of Python `max` once a first candidate exists:
replace the candidate only when the new key is strictly larger. -/
def chooseMax (m : SlurmNode) : List SlurmNode → SlurmNode
  | [] => m
  | y :: ys => if m.idle_time < y.idle_time then chooseMax y ys else chooseMax m ys

theorem pyMaxByIdleTime_cons (x : SlurmNode) (xs : List SlurmNode) :
    pyMaxByIdleTime (x :: xs) = some (chooseMax x xs) := by
  suffices h : ∀ (l : List SlurmNode) (m : SlurmNode),
      l.foldl (fun acc n =>
        match acc with
        | none => some n
        | some m => if m.idle_time < n.idle_time then some n else some m) (some m)
      = some (chooseMax m l) by
    simpa [pyMaxByIdleTime] using h xs x
  intro l
  induction l with
  | nil => intro m; rfl
  | cons y ys ih =>
    intro m
    simp only [List.foldl_cons, chooseMax]
    by_cases hm : m.idle_time < y.idle_time
    · simp only [hm, if_pos, ih]
    · simp only [hm, if_neg, if_false, ih]

theorem pyMaxByIdleTime_eq_none (l : List SlurmNode) :
    pyMaxByIdleTime l = none ↔ l = [] := by
  cases l with
  | nil => simp [pyMaxByIdleTime]
  | cons x xs => simp [pyMaxByIdleTime_cons]

theorem chooseMax_spec : ∀ (xs : List SlurmNode) (m : SlurmNode),
    (chooseMax m xs = m ∧ ∀ n ∈ xs, n.idle_time ≤ m.idle_time)
    ∨ ((∃ pre suf, xs = pre ++ chooseMax m xs :: suf
          ∧ ∀ n ∈ pre, n.idle_time < (chooseMax m xs).idle_time)
        ∧ m.idle_time < (chooseMax m xs).idle_time
        ∧ ∀ n ∈ xs, n.idle_time ≤ (chooseMax m xs).idle_time) := by
  intro xs
  induction xs with
  | nil => intro m; exact Or.inl ⟨rfl, by simp⟩
  | cons y ys ih =>
    intro m
    by_cases hm : m.idle_time < y.idle_time
    · have hcm : chooseMax m (y :: ys) = chooseMax y ys := by
        simp [chooseMax, hm]
      rw [hcm]
      rcases ih y with ⟨he, hall⟩ | ⟨⟨pre, suf, hxs, hpre⟩, hlt, hall⟩
      · rw [he]
        refine Or.inr ⟨⟨[], ys, by simp, by simp⟩, hm, ?_⟩
        intro n hn
        rcases List.mem_cons.mp hn with rfl | hn
        · exact le_refl _
        · exact hall n hn
      · refine Or.inr ⟨⟨y :: pre, suf, by simpa using hxs, ?_⟩, lt_trans hm hlt, ?_⟩
        · intro n hn
          rcases List.mem_cons.mp hn with rfl | hn
          · exact hlt
          · exact hpre n hn
        · intro n hn
          rcases List.mem_cons.mp hn with rfl | hn
          · exact le_of_lt hlt
          · exact hall n hn
    · have hcm : chooseMax m (y :: ys) = chooseMax m ys := by
        simp [chooseMax, hm]
      rw [hcm]
      rcases ih m with ⟨he, hall⟩ | ⟨⟨pre, suf, hxs, hpre⟩, hlt, hall⟩
      · rw [he]
        refine Or.inl ⟨rfl, ?_⟩
        intro n hn
        rcases List.mem_cons.mp hn with rfl | hn
        · exact le_of_not_lt hm
        · exact hall n hn
      · refine Or.inr ⟨⟨y :: pre, suf, by simpa using hxs, ?_⟩, hlt, ?_⟩
        · intro n hn
          rcases List.mem_cons.mp hn with rfl | hn
          · exact lt_of_le_of_lt (le_of_not_lt hm) hlt
          · exact hpre n hn
        · intro n hn
          rcases List.mem_cons.mp hn with rfl | hn
          · exact le_of_lt (lt_of_le_of_lt (le_of_not_lt hm) hlt)
          · exact hall n hn

/-- Python `max(l, default=None, key=idle_time)` returns the first element
attaining the maximum idle time, and `none` exactly on the empty list. -/
theorem pyMaxByIdleTime_first_max {l : List SlurmNode} {m : SlurmNode}
    (h : pyMaxByIdleTime l = some m) :
    (∃ pre suf, l = pre ++ m :: suf ∧ ∀ n ∈ pre, n.idle_time < m.idle_time)
    ∧ ∀ n ∈ l, n.idle_time ≤ m.idle_time := by
  cases l with
  | nil => simp [pyMaxByIdleTime] at h
  | cons x xs =>
    rw [pyMaxByIdleTime_cons] at h
    have hm : chooseMax x xs = m := Option.some.inj h
    rcases chooseMax_spec xs x with ⟨he, hall⟩ | ⟨⟨pre, suf, hxs, hpre⟩, hlt, hall⟩
    · subst hm
      rw [he]
      refine ⟨⟨[], xs, by simp, by simp⟩, ?_⟩
      intro n hn
      rcases List.mem_cons.mp hn with rfl | hn
      · exact le_refl _
      · exact hall n hn
    · subst hm
      refine ⟨⟨x :: pre, suf, by simpa using hxs, ?_⟩, ?_⟩
      · intro n hn
        rcases List.mem_cons.mp hn with rfl | hn
        · exact hlt
        · exact hpre n hn
      · intro n hn
        rcases List.mem_cons.mp hn with rfl | hn
        · exact le_of_lt hlt
        · exact hall n hn

theorem idlePartition_eq_filter (nodes : List SlurmNode) :
    (idlePartition nodes).1
      = nodes.filter (fun n => n.is_dynamic && decide (0 < n.idle_time))
    ∧ (idlePartition nodes).2
      = nodes.filter (fun n => !n.is_dynamic && decide (0 < n.idle_time)) := by
  suffices h : ∀ (l : List SlurmNode) (d s : List SlurmNode),
      l.foldl (fun acc node =>
        if node.idle_time > 0 then
          if node.is_dynamic then (acc.1 ++ [node], acc.2) else (acc.1, acc.2 ++ [node])
        else acc) (d, s)
      = (d ++ l.filter (fun n => n.is_dynamic && decide (0 < n.idle_time)),
         s ++ l.filter (fun n => !n.is_dynamic && decide (0 < n.idle_time))) by
    have h0 := h nodes [] []
    unfold idlePartition
    rw [h0]
    simp
  intro l
  induction l with
  | nil => intro d s; simp
  | cons x xs ih =>
    intro d s
    simp only [List.foldl_cons]
    by_cases hx : x.idle_time > 0
    · by_cases hd : x.is_dynamic
      · simp only [hx, if_pos, hd, if_true, ih, List.filter_cons]
        simp [hd, hx]
      · simp only [hx, if_pos, hd, if_false, ih, List.filter_cons]
        simp [hd, hx]
    · simp only [hx, if_neg, if_false, ih, List.filter_cons]
      have hx' : ¬0 < x.idle_time := hx
      simp [hx']

/-- The `most-idle-node` payload of `_format_node_idle_time`. -/
def mostIdleNodeObj (m : SlurmNode) : Value :=
  .obj [("name", .str m.name),
        ("partition", .str m.queue_name),
        ("resource", .str m.compute_resource_name),
        ("instance-id", match m.«instance» with
          | some inst => .str inst.id
          | none => .null)]

theorem format_node_idle_time_pos {m : SlurmNode} (hm : 0 < m.idle_time)
    (l : List SlurmNode) :
    _format_node_idle_time (some m) l =
      Value.obj [("idle-time", .num m.idle_time),
                 ("idle-count", .num l.length),
                 ("most-idle-node", mostIdleNodeObj m)] := by
  simp [_format_node_idle_time, hm, mostIdleNodeObj]

/-- C8: `_get_max_idle_times` partitions the nodes by kind keeping only
those with strictly positive idle time; for a class with at least one idle
node the reported most-idle node is the first node in iteration order
attaining the maximum idle time (no secondary key) and `idle-count` is the
number of strictly-positive-idle nodes of the class; a class with no idle
node reports the zero-value summary. -/
theorem claim_C8_most_idle_node_selection :
    ∀ nodes : List SlurmNode,
      (idlePartition nodes).1
        = nodes.filter (fun n => n.is_dynamic && decide (0 < n.idle_time))
      ∧ (idlePartition nodes).2
        = nodes.filter (fun n => !n.is_dynamic && decide (0 < n.idle_time))
      ∧ ∀ l, (l = (idlePartition nodes).1 ∨ l = (idlePartition nodes).2) →
          (pyMaxByIdleTime l = none ↔ l = [])
          ∧ (l = [] →
              _format_node_idle_time (pyMaxByIdleTime l) l
                = Value.obj [("idle-time", .num 0), ("idle-count", .num 0)])
          ∧ ∀ m, pyMaxByIdleTime l = some m →
              (∃ pre suf, l = pre ++ m :: suf ∧ ∀ n ∈ pre, n.idle_time < m.idle_time)
              ∧ (∀ n ∈ l, n.idle_time ≤ m.idle_time)
              ∧ _format_node_idle_time (pyMaxByIdleTime l) l
                  = Value.obj [("idle-time", .num m.idle_time),
                               ("idle-count", .num l.length),
                               ("most-idle-node", mostIdleNodeObj m)] := by
  intro nodes
  obtain ⟨hd, hs⟩ := idlePartition_eq_filter nodes
  refine ⟨hd, hs, ?_⟩
  intro l hl
  have hidle : ∀ n ∈ l, 0 < n.idle_time := by
    intro n hn
    rcases hl with rfl | rfl
    · rw [hd] at hn
      have := List.of_mem_filter hn
      simp only [Bool.and_eq_true, decide_eq_true_eq] at this
      exact this.2
    · rw [hs] at hn
      have := List.of_mem_filter hn
      simp only [Bool.and_eq_true, decide_eq_true_eq] at this
      exact this.2
  refine ⟨pyMaxByIdleTime_eq_none l, ?_, ?_⟩
  · intro hnil
    subst hnil
    rfl
  · intro m hm
    obtain ⟨hfirst, hub⟩ := pyMaxByIdleTime_first_max hm
    have hmem : m ∈ l := by
      obtain ⟨pre, suf, hps, -⟩ := hfirst
      rw [hps]
      simp
    refine ⟨hfirst, hub, ?_⟩
    rw [hm, format_node_idle_time_pos (hidle m hmem) l]

/-! ## Decimal numeral lemmas -/

theorem natDigitsGo_acc (fuel : Nat) : ∀ (n : Nat) (acc : List Char),
    natDigitsGo fuel n acc = natDigitsGo fuel n [] ++ acc := by
  induction fuel with
  | zero => intro n acc; simp [natDigitsGo]
  | succ f ih =>
    intro n acc
    simp only [natDigitsGo]
    by_cases h : n < 10
    · simp [h]
    · simp only [h, if_false]
      rw [ih (n / 10) (Char.ofNat ('0'.toNat + n % 10) :: acc),
        ih (n / 10) [Char.ofNat ('0'.toNat + n % 10)]]
      simp

theorem natDigitsGo_fuel : ∀ (n f1 f2 : Nat), n < f1 → n < f2 →
    natDigitsGo f1 n [] = natDigitsGo f2 n [] := by
  intro n
  induction n using Nat.strong_induction_on with
  | _ n ih =>
    intro f1 f2 h1 h2
    cases f1 with
    | zero => omega
    | succ g1 =>
      cases f2 with
      | zero => omega
      | succ g2 =>
        simp only [natDigitsGo]
        by_cases h : n < 10
        · simp [h]
        · simp only [h, if_false]
          rw [natDigitsGo_acc g1, natDigitsGo_acc g2]
          have hdiv : n / 10 < n := Nat.div_lt_self (by omega) (by omega)
          rw [ih (n / 10) hdiv g1 (n / 10 + 1) (by omega) (by omega),
            ih (n / 10) hdiv g2 (n / 10 + 1) (by omega) (by omega)]

theorem natDigits_decomp {n : Nat} (h : 10 ≤ n) :
    natDigits n = natDigits (n / 10) ++ [Char.ofNat ('0'.toNat + n % 10)] := by
  have hh : ¬n < 10 := by omega
  have h1 : natDigits n = natDigitsGo n (n / 10) [Char.ofNat ('0'.toNat + n % 10)] := by
    unfold natDigits
    simp only [natDigitsGo, hh, if_false]
  rw [h1, natDigitsGo_acc,
    natDigitsGo_fuel (n / 10) n (n / 10 + 1) (by omega) (by omega)]
  rfl

theorem natDigits_small {n : Nat} (h : n < 10) :
    natDigits n = [Char.ofNat ('0'.toNat + n % 10)] := by
  unfold natDigits
  simp [natDigitsGo, h]

theorem natDigits_isDigit (n : Nat) : ∀ c ∈ natDigits n, c.isDigit = true := by
  induction n using Nat.strong_induction_on with
  | _ n ih =>
    by_cases h : n < 10
    · rw [natDigits_small h]
      have hm : n % 10 < 10 := Nat.mod_lt _ (by omega)
      intro c hc
      simp only [List.mem_singleton] at hc
      subst hc
      set m := n % 10 with hmdef
      interval_cases m <;> decide
    · rw [natDigits_decomp (by omega)]
      intro c hc
      rcases List.mem_append.mp hc with hc | hc
      · exact ih (n / 10) (Nat.div_lt_self (by omega) (by omega)) c hc
      · simp only [List.mem_singleton] at hc
        subst hc
        have hm : n % 10 < 10 := Nat.mod_lt _ (by omega)
        set m := n % 10 with hmdef
        interval_cases m <;> decide

theorem natDigits_ne_nil (n : Nat) : natDigits n ≠ [] := by
  by_cases h : n < 10
  · rw [natDigits_small h]; simp
  · rw [natDigits_decomp (by omega)]; simp

theorem isDigit_not_special {c : Char} (h : c.isDigit = true) :
    c ≠ '[' ∧ c ≠ ']' ∧ c ≠ ',' ∧ c ≠ '-' ∧ c ≠ '+' ∧ c ≠ '_' ∧ ¬c.isWhitespace := by
  refine ⟨?_, ?_, ?_, ?_, ?_, ?_, ?_⟩
  · rintro rfl; simp at h
  · rintro rfl; simp at h
  · rintro rfl; simp at h
  · rintro rfl; simp at h
  · rintro rfl; simp at h
  · rintro rfl; simp at h
  · intro hw
    have h0 : c = ' ' ∨ c = '\t' ∨ c = '\x0d' ∨ c = '\n' := by
      have hw2 := hw
      simp only [Char.isWhitespace, Bool.or_eq_true, decide_eq_true_eq] at hw2
      tauto
    rcases h0 with rfl | rfl | rfl | rfl <;> exact absurd h (by decide)

theorem digitsUndAux_cons_digit (acc : Nat) {c : Char} (hc : c.isDigit = true)
    (rest : List Char) :
    digitsUndAux acc (c :: rest) = digitsUndAux (acc * 10 + digitVal c) rest := by
  conv_lhs => unfold digitsUndAux
  simp [hc]

theorem digitsUndAux_append : ∀ (ds : List Char) (acc v : Nat) {d : Char},
    (∀ c ∈ ds, c.isDigit = true) → d.isDigit = true →
    digitsUndAux acc ds = some v →
    digitsUndAux acc (ds ++ [d]) = some (v * 10 + digitVal d) := by
  intro ds
  induction ds with
  | nil =>
    intro acc v d _ hd hv
    have hv' : acc = v := Option.some.inj hv
    subst hv'
    rw [List.nil_append, digitsUndAux_cons_digit acc hd]
    rfl
  | cons c rest ih =>
    intro acc v d hds hd hv
    have hc : c.isDigit = true := hds c (by simp)
    rw [digitsUndAux_cons_digit acc hc] at hv
    rw [List.cons_append, digitsUndAux_cons_digit acc hc]
    exact ih _ v (fun x hx => hds x (by simp [hx])) hd hv

theorem pyIntDigits_cons (c : Char) (rest : List Char) :
    pyIntDigits (c :: rest)
      = if c.isDigit then digitsUndAux (digitVal c) rest else none := rfl

theorem pyIntDigits_append {ds : List Char} {v : Nat} {d : Char}
    (hds : ∀ c ∈ ds, c.isDigit = true) (hd : d.isDigit = true)
    (hv : pyIntDigits ds = some v) :
    pyIntDigits (ds ++ [d]) = some (v * 10 + digitVal d) := by
  cases ds with
  | nil => simp [pyIntDigits] at hv
  | cons c rest =>
    have hc : c.isDigit = true := hds c (by simp)
    rw [pyIntDigits_cons, if_pos hc] at hv
    rw [List.cons_append, pyIntDigits_cons, if_pos hc]
    exact digitsUndAux_append rest (digitVal c) v (fun x hx => hds x (by simp [hx])) hd hv

theorem dchar_isDigit {m : Nat} (h : m < 10) :
    (Char.ofNat ('0'.toNat + m)).isDigit = true := by
  interval_cases m <;> decide

theorem digitVal_dchar {m : Nat} (h : m < 10) :
    digitVal (Char.ofNat ('0'.toNat + m)) = m := by
  interval_cases m <;> decide

theorem pyIntDigits_natDigits (n : Nat) : pyIntDigits (natDigits n) = some n := by
  induction n using Nat.strong_induction_on with
  | _ n ih =>
    by_cases h : n < 10
    · interval_cases n <;> decide
    · rw [natDigits_decomp (by omega)]
      have hm : n % 10 < 10 := Nat.mod_lt _ (by omega)
      rw [pyIntDigits_append (natDigits_isDigit (n / 10)) (dchar_isDigit hm)
        (ih (n / 10) (Nat.div_lt_self (by omega) (by omega)))]
      rw [digitVal_dchar hm]
      congr 1
      omega

theorem pyInt_natDigits (n : Nat) : pyInt (natDigits n) = .ok (Int.ofNat n) := by
  obtain ⟨c, rest, hc⟩ := List.exists_cons_of_ne_nil (natDigits_ne_nil n)
  have hcd : c.isDigit = true := natDigits_isDigit n c (by rw [hc]; simp)
  have hns := isDigit_not_special hcd
  rw [hc]
  simp only [pyInt, if_neg hns.2.2.2.2.1, if_neg hns.2.2.2.1]
  rw [← hc, pyIntDigits_natDigits n]

theorem intDigits_ofNat (n : Nat) : intDigits (Int.ofNat n) = natDigits n := by
  have h : ¬(Int.ofNat n < 0) := by
    simp only [Int.ofNat_eq_coe]
    omega
  simp [intDigits, h]

theorem pyRange_ofNat {a b : Nat} (h : a ≤ b + 1) :
    pyRange (Int.ofNat a) (Int.ofNat b + 1) = (List.range' a (b + 1 - a)).map Int.ofNat := by
  unfold pyRange
  have h1 : (Int.ofNat b + 1 - Int.ofNat a).toNat = b + 1 - a := by
    simp only [Int.ofNat_eq_coe]
    omega
  rw [h1, List.range'_eq_map_range, List.map_map]
  apply List.map_congr_left
  intro k _
  simp only [Function.comp_apply]
  exact (Int.ofNat_add a k).symm

/-! ## `splitOnChar` lemmas -/

theorem splitOnChar_no_sep {sep : Char} : ∀ {t : List Char}, (∀ c ∈ t, c ≠ sep) →
    splitOnChar sep t = [t] := by
  intro t
  induction t with
  | nil => intro _; rfl
  | cons c rest ih =>
    intro h
    have hc : c ≠ sep := h c (by simp)
    conv_lhs => unfold splitOnChar
    rw [if_neg hc, ih (fun x hx => h x (by simp [hx]))]

theorem splitOnChar_append_sep {sep : Char} : ∀ {t r : List Char},
    (∀ c ∈ t, c ≠ sep) →
    splitOnChar sep (t ++ sep :: r) = t :: splitOnChar sep r := by
  intro t
  induction t with
  | nil =>
    intro r _
    conv_lhs => unfold splitOnChar
    simp
  | cons c rest ih =>
    intro r h
    have hc : c ≠ sep := h c (by simp)
    conv_lhs => rw [List.cons_append]; unfold splitOnChar
    rw [if_neg hc, ih (fun x hx => h x (by simp [hx]))]

/-! ## Correctness of `_generate_from_range_spec` on well-formed bodies -/



/-- The names one well-formed range token expands to, at the character level. -/
def rangeTokNames (base : List Char) : RangeTok → List String
  | .single n => [(base ++ natDigits n).asString]
  | .pair a b => (List.range' a (b + 1 - a)).map (fun k => (base ++ natDigits k).asString)

theorem natDigits_ne_dash (n : Nat) : ∀ c ∈ natDigits n, c ≠ '-' :=
  fun c hc => (isDigit_not_special (natDigits_isDigit n c hc)).2.2.2.1

theorem processSpan_single (base nrs : List Char) (n : Nat) :
    processSpan base nrs (natDigits n) = .ok (rangeTokNames base (.single n)) := by
  unfold processSpan
  rw [splitOnChar_no_sep (natDigits_ne_dash n)]
  simp only [pyInt_natDigits, exceptOkBind, gt_iff_lt, lt_irrefl, if_false,
    rangeTokNames]
  rw [pyRange_ofNat (Nat.le_succ n)]
  simp only [Nat.add_sub_cancel_left, List.range'_one, List.map_cons, List.map_nil,
    intDigits_ofNat]

theorem processSpan_pair (base nrs : List Char) {a b : Nat} (hab : a ≤ b) :
    processSpan base nrs (natDigits a ++ '-' :: natDigits b)
      = .ok (rangeTokNames base (.pair a b)) := by
  unfold processSpan
  rw [splitOnChar_append_sep (natDigits_ne_dash a), splitOnChar_no_sep (natDigits_ne_dash b)]
  have hno : ¬(Int.ofNat a > Int.ofNat b) := by
    simp only [gt_iff_lt, Int.ofNat_eq_coe, not_lt]
    omega
  simp only [pyInt_natDigits, exceptOkBind, if_neg hno, rangeTokNames]
  rw [pyRange_ofNat (by omega), List.map_map]
  apply congrArg
  apply List.map_congr_left
  intro k _
  exact congrArg (fun d => (base ++ d).asString) (intDigits_ofNat k)

theorem goSpans_ranges (base body : List Char) : ∀ (rs : List RangeTok),
    (∀ r ∈ rs, rangeWF r) →
    goSpans base body (rs.map rangeRender) = .ok (rs.flatMap (rangeTokNames base)) := by
  intro rs
  induction rs with
  | nil => intro _; rfl
  | cons r rest ih =>
    intro h
    simp only [List.map_cons, goSpans]
    have hr : processSpan base body (rangeRender r) = .ok (rangeTokNames base r) := by
      cases r with
      | single n => exact processSpan_single base body n
      | pair a b => exact processSpan_pair base body (h (.pair a b) (by simp))
    rw [hr, ih (fun x hx => h x (by simp [hx]))]
    simp only [exceptOkBind, List.flatMap_cons]

theorem rangeRender_ne_comma (r : RangeTok) : ∀ c ∈ rangeRender r, c ≠ ',' := by
  cases r with
  | single n =>
    intro c hc
    exact (isDigit_not_special (natDigits_isDigit n c hc)).2.2.1
  | pair a b =>
    intro c hc
    simp only [rangeRender, List.mem_append, List.mem_cons] at hc
    rcases hc with hc | rfl | hc
    · exact (isDigit_not_special (natDigits_isDigit a c hc)).2.2.1
    · decide
    · exact (isDigit_not_special (natDigits_isDigit b c hc)).2.2.1

theorem rangeRender_ne_brackets (r : RangeTok) :
    ∀ c ∈ rangeRender r, c ≠ '[' ∧ c ≠ ']' := by
  cases r with
  | single n =>
    intro c hc
    exact ⟨(isDigit_not_special (natDigits_isDigit n c hc)).1,
      (isDigit_not_special (natDigits_isDigit n c hc)).2.1⟩
  | pair a b =>
    intro c hc
    simp only [rangeRender, List.mem_append, List.mem_cons] at hc
    rcases hc with hc | rfl | hc
    · exact ⟨(isDigit_not_special (natDigits_isDigit a c hc)).1,
        (isDigit_not_special (natDigits_isDigit a c hc)).2.1⟩
    · exact ⟨by decide, by decide⟩
    · exact ⟨(isDigit_not_special (natDigits_isDigit b c hc)).1,
        (isDigit_not_special (natDigits_isDigit b c hc)).2.1⟩

theorem rangeBodyRender_split : ∀ (rs : List RangeTok), rs ≠ [] →
    splitOnChar ',' (elemRender.rangeBodyRender rs) = rs.map rangeRender := by
  intro rs
  induction rs with
  | nil => intro h; exact absurd rfl h
  | cons r rest ih =>
    intro _
    cases rest with
    | nil =>
      simp only [elemRender.rangeBodyRender, List.map_cons, List.map_nil]
      exact splitOnChar_no_sep (rangeRender_ne_comma r)
    | cons r2 rest2 =>
      have hbody : elemRender.rangeBodyRender (r :: r2 :: rest2)
          = rangeRender r ++ ',' :: elemRender.rangeBodyRender (r2 :: rest2) := rfl
      rw [hbody, splitOnChar_append_sep (rangeRender_ne_comma r),
        ih (by simp)]
      simp

/-- `_generate_from_range_spec` on the rendering of a well-formed range list
produces exactly the spec-level Cartesian expansion. -/
theorem generate_correct (base : List Char) (rs : List RangeTok) (hne : rs ≠ [])
    (hwf : ∀ r ∈ rs, rangeWF r) :
    _generate_from_range_spec base (elemRender.rangeBodyRender rs)
      = .ok (rs.flatMap (rangeTokNames base)) := by
  unfold _generate_from_range_spec
  rw [rangeBodyRender_split rs hne]
  exact goSpans_ranges base _ rs hwf

/-! ## Structural lemmas for `expandLoop` -/

theorem splitAtFirst_none {p : Char → Bool} : ∀ {s : List Char},
    (∀ c ∈ s, p c = false) → splitAtFirst p s = none := by
  intro s
  induction s with
  | nil => intro _; rfl
  | cons c rest ih =>
    intro h
    unfold splitAtFirst
    rw [h c (by simp), ih (fun x hx => h x (by simp [hx]))]
    rfl

theorem splitAtFirst_first {p : Char → Bool} :
    ∀ (pre : List Char) (c : Char) (suf : List Char),
      (∀ x ∈ pre, p x = false) → p c = true →
      splitAtFirst p (pre ++ c :: suf) = some (pre, c, suf) := by
  intro pre
  induction pre with
  | nil =>
    intro c suf _ hc
    rw [List.nil_append]
    unfold splitAtFirst
    rw [hc]
    rfl
  | cons x rest ih =>
    intro c suf hpre hc
    rw [List.cons_append]
    unfold splitAtFirst
    rw [hpre x (by simp), ih c suf (fun y hy => hpre y (by simp [hy])) hc]
    rfl

theorem expandLoop_nil : expandLoop [] = .ok [] := by
  unfold expandLoop
  rfl

/-- A nonempty remainder with no `[` or `,` is yielded whole as a final
plain element. -/
theorem expandLoop_plain {s : List Char} (hne : s ≠ [])
    (hclean : ∀ c ∈ s, c ≠ '[' ∧ c ≠ ',') :
    expandLoop s = .ok [s.asString] := by
  have hnone : splitAtFirst (fun c => c == '[' || c == ',') s = none := by
    apply splitAtFirst_none
    intro c hc
    simp [(hclean c hc).1, (hclean c hc).2]
  rw [expandLoop, dif_neg hne]
  split
  · rfl
  · rename_i base mc rest h
    rw [hnone] at h
    cases h

/-- A clean nonempty base name followed by a comma is yielded and scanning
continues after the comma. -/
theorem expandLoop_comma (base rest : List Char) (hne : base ≠ [])
    (hclean : ∀ c ∈ base, c ≠ '[' ∧ c ≠ ',') :
    expandLoop (base ++ ',' :: rest)
      = (fun t => base.asString :: t) <$> expandLoop rest := by
  have hsp : splitAtFirst (fun c => c == '[' || c == ',') (base ++ ',' :: rest)
      = some (base, ',', rest) := by
    apply splitAtFirst_first
    · intro x hx
      simp [(hclean x hx).1, (hclean x hx).2]
    · decide
  rw [expandLoop, dif_neg (by simp)]
  split
  · rename_i h
    rw [hsp] at h
    cases h
  · rename_i b mc r h
    rw [hsp] at h
    injection h with h1
    obtain ⟨hb, hm, hr⟩ : b = base ∧ mc = ',' ∧ r = rest := by
      simpa [Prod.ext_iff] using h1.symm
    subst hb; subst hm; subst hr
    rw [if_neg (by simpa [List.isEmpty_iff] using hne), if_pos (by decide)]

/-- A leading `[` or `,` (empty base name) raises. -/
theorem expandLoop_leading_sep (c : Char) (rest : List Char) (hc : c = '[' ∨ c = ',') :
    ∃ e, expandLoop (c :: rest) = .error e := by
  have hsp : splitAtFirst (fun c => c == '[' || c == ',') (c :: rest)
      = some ([], c, rest) := by
    apply splitAtFirst_first [] c rest (by simp)
    rcases hc with rfl | rfl <;> decide
  rw [expandLoop, dif_neg (by simp)]
  split
  · rename_i h
    rw [hsp] at h
    cases h
  · rename_i b mc r h
    rw [hsp] at h
    injection h with h1
    obtain ⟨hb, hm, hr⟩ : b = [] ∧ mc = c ∧ r = rest := by
      simpa [Prod.ext_iff] using h1.symm
    subst hb; subst hm; subst hr
    rw [if_pos (by decide)]
    exact ⟨_, rfl⟩

/-- Scanning a bracketed element: a clean nonempty base, a `]`-free bracket
body and the matching `]` (with an optional following comma) reduce to
`_generate_from_range_spec` followed by the scan of the remainder. The
remainder is entered directly after the `]` (or after one comma); its first
character is NOT required to be a separator. -/
theorem expandLoop_bracket (base body rest : List Char) (hne : base ≠ [])
    (hbase : ∀ c ∈ base, c ≠ '[' ∧ c ≠ ',' ∧ c ≠ ']')
    (hbody : ∀ c ∈ body, c ≠ ']') :
    expandLoop (base ++ '[' :: (body ++ ']' :: rest))
      = (do
          let names ← _generate_from_range_spec base body
          let tail ← expandLoop (dropLeadingComma rest)
          Except.ok (names ++ tail)) := by
  have hsp1 : splitAtFirst (fun c => c == '[' || c == ',')
      (base ++ '[' :: (body ++ ']' :: rest)) = some (base, '[', body ++ ']' :: rest) := by
    apply splitAtFirst_first
    · intro x hx
      simp [(hbase x hx).1, (hbase x hx).2.1]
    · decide
  have hassoc : base ++ '[' :: (body ++ ']' :: rest)
      = (base ++ '[' :: body) ++ ']' :: rest := by
    simp
  have hsp2 : splitAtFirst (fun c => c == ']')
      (base ++ '[' :: (body ++ ']' :: rest)) = some (base ++ '[' :: body, ']', rest) := by
    rw [hassoc]
    apply splitAtFirst_first
    · intro x hx
      rcases List.mem_append.mp hx with hx | hx
      · simp [(hbase x hx).2.2]
      · rcases List.mem_cons.mp hx with rfl | hx
        · decide
        · simp [hbody x hx]
    · decide
  have hdrop : (base ++ '[' :: body).drop (base.length + 1) = body := by
    rw [show base ++ '[' :: body = (base ++ ['[']) ++ body by simp]
    have hlen : (base ++ ['[']).length = base.length + 1 := by simp
    rw [← hlen, List.drop_left]
  have hnotlt : ¬(base ++ '[' :: body).length < base.length := by simp
  rw [expandLoop, dif_neg (by simp)]
  split
  · rename_i h
    rw [hsp1] at h
    cases h
  · rename_i b mc r h
    rw [hsp1] at h
    injection h with h1
    obtain ⟨rfl, rfl, rfl⟩ : base = b ∧ '[' = mc ∧ body ++ ']' :: rest = r := by
      simpa [Prod.ext_iff] using h1
    rw [if_neg (by simpa [List.isEmpty_iff] using hne), if_neg (by decide)]
    split
    · rename_i h2
      rw [hsp2] at h2
      cases h2
    · rename_i before x after h2
      rw [hsp2] at h2
      injection h2 with h21
      obtain ⟨rfl, rfl, rfl⟩ : base ++ '[' :: body = before ∧ ']' = x ∧ rest = after := by
        simpa [Prod.ext_iff] using h21
      rw [if_neg hnotlt, hdrop]

/-! ## Refinement: the parser computes the spec-level denotation -/

theorem dataAsString (s : String) : s.data.asString = s := rfl

theorem rangeTokNames_eq_rangeDenote (base : String) (r : RangeTok) :
    rangeTokNames base.data r = rangeDenote base r := by
  cases r with
  | single n => rfl
  | pair a b => rfl

theorem goodName_clean {s : String} (h : goodName s) :
    ∀ c ∈ s.data, c ≠ '[' ∧ c ≠ ',' :=
  fun c hc => ⟨(h.2 c hc).1, (h.2 c hc).2.2.1⟩

theorem rangeBodyRender_ne_rbracket : ∀ (rs : List RangeTok),
    ∀ c ∈ elemRender.rangeBodyRender rs, c ≠ ']' := by
  intro rs
  induction rs with
  | nil => intro c hc; simp [elemRender.rangeBodyRender] at hc
  | cons r rest ih =>
    intro c hc
    cases rest with
    | nil =>
      simp only [elemRender.rangeBodyRender] at hc
      exact (rangeRender_ne_brackets r c hc).2
    | cons r2 rest2 =>
      have hb : elemRender.rangeBodyRender (r :: r2 :: rest2)
          = rangeRender r ++ ',' :: elemRender.rangeBodyRender (r2 :: rest2) := rfl
      rw [hb] at hc
      rcases List.mem_append.mp hc with hc | hc
      · exact (rangeRender_ne_brackets r c hc).2
      · rcases List.mem_cons.mp hc with rfl | hc
        · decide
        · exact ih c hc

theorem goodName_bracket_clean {s : String} (h : goodName s) :
    ∀ c ∈ s.data, c ≠ '[' ∧ c ≠ ',' ∧ c ≠ ']' :=
  fun c hc => ⟨(h.2 c hc).1, (h.2 c hc).2.2.1, (h.2 c hc).2.1⟩

theorem elemDenote_bracketed_eq (base : String) (rs : List RangeTok) :
    rs.flatMap (rangeTokNames base.data) = elemDenote (.bracketed base rs) := by
  simp only [elemDenote]
  congr 1

/-- `expandLoop` on the rendering of a well-formed hostlist computes exactly
the spec-level Cartesian expansion, element by element in order. -/
theorem expandLoop_render : ∀ (l : List HostElem), hostListWF l →
    expandLoop (hostListRender l) = .ok (hostListDenote l) := by
  intro l
  induction l with
  | nil => intro _; exact expandLoop_nil
  | cons e es ih =>
    intro hwf
    have hwfe : elemWF e := hwf e (by simp)
    have hwfes : hostListWF es := fun x hx => hwf x (by simp [hx])
    cases es with
    | nil =>
      cases e with
      | plain name =>
        have hgood : goodName name := hwfe
        have h1 : hostListRender [HostElem.plain name] = name.data := rfl
        rw [h1, expandLoop_plain hgood.1 (goodName_clean hgood), dataAsString]
        rfl
      | bracketed base rs =>
        obtain ⟨hgood, hrne, hrwf⟩ := hwfe
        have h1 : hostListRender [HostElem.bracketed base rs]
            = base.data ++ '[' ::
              (elemRender.rangeBodyRender rs ++ ']' :: ([] : List Char)) := by
          simp [hostListRender, elemRender]
        rw [h1, expandLoop_bracket base.data (elemRender.rangeBodyRender rs) []
            hgood.1 (goodName_bracket_clean hgood) (rangeBodyRender_ne_rbracket rs),
          generate_correct base.data rs hrne hrwf]
        simp only [exceptOkBind]
        rw [show dropLeadingComma [] = [] from rfl, expandLoop_nil]
        simp only [exceptOkBind, List.append_nil]
        rw [elemDenote_bracketed_eq]
        simp [hostListDenote]
    | cons e2 es2 =>
      cases e with
      | plain name =>
        have hgood : goodName name := hwfe
        have hren : hostListRender (HostElem.plain name :: e2 :: es2)
            = name.data ++ ',' :: hostListRender (e2 :: es2) := rfl
        rw [hren, expandLoop_comma name.data _ hgood.1 (goodName_clean hgood),
          ih hwfes, dataAsString]
        rfl
      | bracketed base rs =>
        obtain ⟨hgood, hrne, hrwf⟩ := hwfe
        have hren : hostListRender (HostElem.bracketed base rs :: e2 :: es2)
            = base.data ++ '[' ::
              (elemRender.rangeBodyRender rs ++ ']' ::
                (',' :: hostListRender (e2 :: es2))) := by
          simp [hostListRender, elemRender]
        rw [hren, expandLoop_bracket base.data _ _ hgood.1
            (goodName_bracket_clean hgood) (rangeBodyRender_ne_rbracket rs),
          generate_correct base.data rs hrne hrwf]
        simp only [exceptOkBind]
        rw [show dropLeadingComma (',' :: hostListRender (e2 :: es2))
            = hostListRender (e2 :: es2) from rfl,
          ih hwfes]
        simp only [exceptOkBind]
        rw [elemDenote_bracketed_eq]
        rfl

theorem stripWs_eq_self {s : List Char} (h : ∀ c ∈ s, ¬c.isWhitespace) :
    stripWs s = s := by
  unfold stripWs
  apply List.filter_eq_self.mpr
  intro c hc
  simp [h c hc]

theorem rangeRender_no_ws (r : RangeTok) : ∀ c ∈ rangeRender r, ¬c.isWhitespace := by
  cases r with
  | single n =>
    intro c hc
    exact (isDigit_not_special (natDigits_isDigit n c hc)).2.2.2.2.2.2
  | pair a b =>
    intro c hc
    simp only [rangeRender, List.mem_append, List.mem_cons] at hc
    rcases hc with hc | rfl | hc
    · exact (isDigit_not_special (natDigits_isDigit a c hc)).2.2.2.2.2.2
    · decide
    · exact (isDigit_not_special (natDigits_isDigit b c hc)).2.2.2.2.2.2

theorem rangeBodyRender_no_ws : ∀ (rs : List RangeTok),
    ∀ c ∈ elemRender.rangeBodyRender rs, ¬c.isWhitespace := by
  intro rs
  induction rs with
  | nil => intro c hc; simp [elemRender.rangeBodyRender] at hc
  | cons r rest ih =>
    intro c hc
    cases rest with
    | nil => exact rangeRender_no_ws r c hc
    | cons r2 rest2 =>
      have hb : elemRender.rangeBodyRender (r :: r2 :: rest2)
          = rangeRender r ++ ',' :: elemRender.rangeBodyRender (r2 :: rest2) := rfl
      rw [hb] at hc
      rcases List.mem_append.mp hc with hc | hc
      · exact rangeRender_no_ws r c hc
      · rcases List.mem_cons.mp hc with rfl | hc
        · decide
        · exact ih c hc

theorem elemRender_no_ws (e : HostElem) (hwf : elemWF e) :
    ∀ c ∈ elemRender e, ¬c.isWhitespace := by
  cases e with
  | plain name =>
    intro c hc
    exact (hwf.2 c hc).2.2.2
  | bracketed base rs =>
    intro c hc
    rw [show elemRender (.bracketed base rs)
        = base.data ++ '[' :: (elemRender.rangeBodyRender rs ++ [']']) by
      simp [elemRender]] at hc
    rcases List.mem_append.mp hc with hc | hc
    · exact (hwf.1.2 c hc).2.2.2
    · rcases List.mem_cons.mp hc with rfl | hc
      · decide
      · rcases List.mem_append.mp hc with hc | hc
        · exact rangeBodyRender_no_ws rs c hc
        · rcases List.mem_singleton.mp hc with rfl
          decide

theorem hostListRender_no_ws : ∀ (l : List HostElem), hostListWF l →
    ∀ c ∈ hostListRender l, ¬c.isWhitespace := by
  intro l
  induction l with
  | nil => intro _ c hc; simp [hostListRender] at hc
  | cons e es ih =>
    intro hwf c hc
    have hwfe : elemWF e := hwf e (by simp)
    have hwfes : hostListWF es := fun x hx => hwf x (by simp [hx])
    cases es with
    | nil => exact elemRender_no_ws e hwfe c hc
    | cons e2 es2 =>
      have hr : hostListRender (e :: e2 :: es2)
          = elemRender e ++ ',' :: hostListRender (e2 :: es2) := rfl
      rw [hr] at hc
      rcases List.mem_append.mp hc with hc | hc
      · exact elemRender_no_ws e hwfe c hc
      · rcases List.mem_cons.mp hc with rfl | hc
        · decide
        · exact ih hwfes c hc

theorem rangeWF_single (n : Nat) : rangeWF (.single n) := trivial

theorem rangeWF_pair {a b : Nat} (h : a ≤ b) : rangeWF (.pair a b) := h

/-! ## C2 -/

/-- C2: on every well-formed hostlist spec (the rendering of a well-formed
element list), `_expand_slurm_node_spec` yields exactly the names obtained by
expanding each bracketed inclusive range against its base name, in
left-to-right element order and ascending range order; the empty string
expands to the empty sequence; and the spec's concrete example expands to
exactly the listed seven names in order. -/
theorem claim_C2_expand_wellformed_specs :
    (∀ l : List HostElem, hostListWF l →
      _expand_slurm_node_spec (hostListRender l).asString = .ok (hostListDenote l))
    ∧ _expand_slurm_node_spec "" = .ok []
    ∧ _expand_slurm_node_spec "queue1-dy-c5_xlarge-[1-2,4,6,8-9],queue1-dy-c6_xlarge-6"
        = .ok ["queue1-dy-c5_xlarge-1", "queue1-dy-c5_xlarge-2", "queue1-dy-c5_xlarge-4",
               "queue1-dy-c5_xlarge-6", "queue1-dy-c5_xlarge-8", "queue1-dy-c5_xlarge-9",
               "queue1-dy-c6_xlarge-6"] := by
  have hgen : ∀ l : List HostElem, hostListWF l →
      _expand_slurm_node_spec (hostListRender l).asString = .ok (hostListDenote l) := by
    intro l hwf
    unfold _expand_slurm_node_spec
    rw [show ((hostListRender l).asString).data = hostListRender l from rfl,
      stripWs_eq_self (hostListRender_no_ws l hwf), expandLoop_render l hwf]
  refine ⟨hgen, expandLoop_nil, ?_⟩
  have hwf : hostListWF
      [HostElem.bracketed "queue1-dy-c5_xlarge-"
        [.pair 1 2, .single 4, .single 6, .pair 8 9],
       HostElem.plain "queue1-dy-c6_xlarge-6"] := by
    intro e he
    simp only [List.mem_cons, List.not_mem_nil, or_false] at he
    rcases he with rfl | rfl
    · refine ⟨⟨by decide, by decide⟩, by simp, ?_⟩
      intro r hr
      simp only [List.mem_cons, List.not_mem_nil, or_false] at hr
      rcases hr with rfl | rfl | rfl | rfl
      · exact rangeWF_pair (by omega)
      · exact rangeWF_single 4
      · exact rangeWF_single 6
      · exact rangeWF_pair (by omega)
    · exact ⟨by decide, by decide⟩
  have h := hgen _ hwf
  rw [show (hostListRender
      [HostElem.bracketed "queue1-dy-c5_xlarge-"
        [.pair 1 2, .single 4, .single 6, .pair 8 9],
       HostElem.plain "queue1-dy-c6_xlarge-6"]).asString
      = "queue1-dy-c5_xlarge-[1-2,4,6,8-9],queue1-dy-c6_xlarge-6" by decide] at h
  rw [h]
  congr 1

/-- Witness for C2: the general part applied to a small concrete well-formed
spec. -/
theorem claim_C2_expand_wellformed_specs_witness :
    _expand_slurm_node_spec
        (hostListRender [HostElem.bracketed "q-" [.pair 1 3],
          HostElem.plain "r-7"]).asString
      = .ok (hostListDenote [HostElem.bracketed "q-" [.pair 1 3],
          HostElem.plain "r-7"]) := by
  apply claim_C2_expand_wellformed_specs.1
  intro e he
  simp only [List.mem_cons, List.not_mem_nil, or_false] at he
  rcases he with rfl | rfl
  · refine ⟨⟨by decide, by decide⟩, by simp, ?_⟩
    intro r hr
    simp only [List.mem_cons, List.not_mem_nil, or_false] at hr
    rcases hr with rfl
    exact rangeWF_pair (by omega)
  · exact ⟨by decide, by decide⟩

/-! ## Error behaviour of the parser -/

theorem splitAtFirst_eq_none {p : Char → Bool} : ∀ {s : List Char},
    splitAtFirst p s = none → ∀ c ∈ s, p c = false := by
  intro s
  induction s with
  | nil => intro _ c hc; simp at hc
  | cons x rest ih =>
    intro h c hc
    unfold splitAtFirst at h
    by_cases hx : p x
    · rw [if_pos hx] at h
      cases h
    · rw [if_neg hx] at h
      rcases List.mem_cons.mp hc with rfl | hc
      · simpa using hx
      · cases hsp : splitAtFirst p rest with
        | none => exact ih hsp c hc
        | some r =>
          rw [hsp] at h
          simp at h

theorem dropLeadingComma_eq_self {r : List Char} (h : r.head? ≠ some ',') :
    dropLeadingComma r = r := by
  cases r with
  | nil => rfl
  | cons c rest =>
    have hc : c ≠ ',' := by
      intro hcc
      subst hcc
      exact h rfl
    unfold dropLeadingComma
    split
    · rename_i heq
      injection heq with h1 h2
      exact absurd h1 hc
    · rfl

/-- A span that splits on `-` into more than two parts raises. -/
theorem processSpan_too_many_parts (base nrs sp : List Char)
    (h : 2 < (splitOnChar '-' sp).length) :
    ∃ e, processSpan base nrs sp = .error e := by
  unfold processSpan
  cases hl : splitOnChar '-' sp with
  | nil => rw [hl] at h; simp at h
  | cons a tl =>
    cases tl with
    | nil => rw [hl] at h; simp at h
    | cons b tl2 =>
      cases tl2 with
      | nil => rw [hl] at h; simp at h
      | cons c tl3 => exact ⟨_, rfl⟩

/-- A two-part span whose parsed bounds are descending raises. -/
theorem processSpan_descending (base nrs sp : List Char) {a b : List Char} {x y : Int}
    (hl : splitOnChar '-' sp = [a, b]) (ha : pyInt a = .ok x) (hb : pyInt b = .ok y)
    (hlt : y < x) :
    ∃ e, processSpan base nrs sp = .error e := by
  simp only [processSpan, hl]
  rw [ha, exceptOkBind, hb, exceptOkBind, if_pos (show x > y by omega)]
  exact ⟨_, rfl⟩

/-- A span whose first numeric token fails `int` parsing raises. -/
theorem processSpan_bad_first (base nrs sp : List Char) {a : List Char}
    (hone : splitOnChar '-' sp = [a] ∨ ∃ b, splitOnChar '-' sp = [a, b])
    {e0 : String} (ha : pyInt a = .error e0) :
    ∃ e, processSpan base nrs sp = .error e := by
  rcases hone with hl | ⟨b, hl⟩
  · simp only [processSpan, hl]
    rw [ha, exceptErrBind]
    exact ⟨_, rfl⟩
  · simp only [processSpan, hl]
    rw [ha, exceptErrBind]
    exact ⟨_, rfl⟩

/-- A two-part span whose second numeric token fails `int` parsing raises. -/
theorem processSpan_bad_second (base nrs sp : List Char) {a b : List Char} {x : Int}
    (hl : splitOnChar '-' sp = [a, b]) (ha : pyInt a = .ok x) {e0 : String}
    (hb : pyInt b = .error e0) :
    ∃ e, processSpan base nrs sp = .error e := by
  simp only [processSpan, hl]
  rw [ha, exceptOkBind, hb, exceptErrBind]
  exact ⟨_, rfl⟩

/-- If any span of the body fails, the whole range-spec generation fails. -/
theorem goSpans_error (base nrs : List Char) : ∀ (spans : List (List Char)),
    (∃ sp ∈ spans, ∃ e, processSpan base nrs sp = .error e) →
    ∃ e, goSpans base nrs spans = .error e := by
  intro spans
  induction spans with
  | nil => rintro ⟨sp, hsp, -⟩; simp at hsp
  | cons sp0 rest ih =>
    rintro ⟨sp, hsp, e, he⟩
    unfold goSpans
    cases h0 : processSpan base nrs sp0 with
    | error e0 => exact ⟨e0, rfl⟩
    | ok xs =>
      rcases List.mem_cons.mp hsp with rfl | hsp
      · rw [h0] at he
        cases he
      · obtain ⟨e1, he1⟩ := ih ⟨sp, hsp, e, he⟩
        rw [exceptOkBind, he1]
        exact ⟨e1, rfl⟩

theorem generate_error (base body : List Char)
    (h : ∃ sp ∈ splitOnChar ',' body, ∃ e, processSpan base body sp = .error e) :
    ∃ e, _generate_from_range_spec base body = .error e :=
  goSpans_error base body (splitOnChar ',' body) h

/-- An unmatched `[` (no `]` anywhere in the remaining input) raises. -/
theorem expandLoop_unmatched : ∀ (n : Nat) (s : List Char), s.length ≤ n →
    '[' ∈ s → ']' ∉ s → ∃ e, expandLoop s = .error e := by
  intro n
  induction n with
  | zero =>
    intro s hlen hmem _
    rw [List.length_eq_zero.mp (Nat.le_zero.mp hlen)] at hmem
    simp at hmem
  | succ n ih =>
    intro s hlen hmem hnot
    have hne : s ≠ [] := by
      intro h
      rw [h] at hmem
      simp at hmem
    rw [expandLoop, dif_neg hne]
    split
    · rename_i h
      have := splitAtFirst_eq_none h '[' hmem
      simp at this
    · rename_i b mc r h
      obtain ⟨hs, hpmc, hbclean⟩ := splitAtFirst_eq_some h
      by_cases hb : b.isEmpty
      · rw [if_pos hb]
        exact ⟨_, rfl⟩
      · rw [if_neg hb]
        by_cases hmc : mc == ','
        · rw [if_pos hmc]
        -- the `[` must be in `r`
          have hmc' : mc = ',' := by simpa using hmc
          have hmem' : '[' ∈ r := by
            rw [hs] at hmem
            rcases List.mem_append.mp hmem with hx | hx
            · have := hbclean '[' hx
              simp at this
            · rcases List.mem_cons.mp hx with heq | hx
              · rw [hmc'] at heq
                cases heq
              · exact hx
          have hnot' : ']' ∉ r := by
            intro hx
            exact hnot (by rw [hs]; simp [hx])
          have hlen' : r.length ≤ n := by
            rw [hs] at hlen
            simp only [List.length_append, List.length_cons] at hlen
            omega
          obtain ⟨e, he⟩ := ih r hlen' hmem' hnot'
          rw [he]
          exact ⟨e, rfl⟩
        · rw [if_neg hmc]
          split
          · exact ⟨_, rfl⟩
          · rename_i before x after h2
            obtain ⟨hs2, hx2, -⟩ := splitAtFirst_eq_some h2
            have hx2' : x = ']' := by simpa using hx2
            exact absurd (by rw [hs2, hx2']; simp : ']' ∈ s) hnot

/-! ## C3 -/

/-- C3: every malformed-spec condition raises a parse failure for the whole
call: (i) an empty base name before a leading `[` or `,`; (ii) an empty base
name before an interior `,`; (iii) an unmatched `[` with no `]`; (iv) a
bracket span splitting into more than two parts; (v) a descending range; and
(vi) a bracket span whose numeric tokens are not valid integers. -/
theorem claim_C3_malformed_specs_raise :
    (∀ (s : String) (c : Char) (rest : List Char),
      stripWs s.data = c :: rest → c = '[' ∨ c = ',' →
      ∃ e, _expand_slurm_node_spec s = .error e)
    ∧ (∀ (base rest : List Char), base ≠ [] → (∀ c ∈ base, c ≠ '[' ∧ c ≠ ',') →
      ∃ e, expandLoop (base ++ ',' :: ',' :: rest) = .error e)
    ∧ (∀ s : String, '[' ∈ stripWs s.data → ']' ∉ stripWs s.data →
      ∃ e, _expand_slurm_node_spec s = .error e)
    ∧ (∀ (base body rest : List Char), base ≠ [] →
      (∀ c ∈ base, c ≠ '[' ∧ c ≠ ',' ∧ c ≠ ']') → (∀ c ∈ body, c ≠ ']') →
      (∃ sp ∈ splitOnChar ',' body, 2 < (splitOnChar '-' sp).length) →
      ∃ e, expandLoop (base ++ '[' :: (body ++ ']' :: rest)) = .error e)
    ∧ (∀ (base body rest : List Char), base ≠ [] →
      (∀ c ∈ base, c ≠ '[' ∧ c ≠ ',' ∧ c ≠ ']') → (∀ c ∈ body, c ≠ ']') →
      (∃ sp ∈ splitOnChar ',' body, ∃ a b : List Char, ∃ x y : Int,
        splitOnChar '-' sp = [a, b] ∧ pyInt a = .ok x ∧ pyInt b = .ok y ∧ y < x) →
      ∃ e, expandLoop (base ++ '[' :: (body ++ ']' :: rest)) = .error e)
    ∧ (∀ (base body rest : List Char), base ≠ [] →
      (∀ c ∈ base, c ≠ '[' ∧ c ≠ ',' ∧ c ≠ ']') → (∀ c ∈ body, c ≠ ']') →
      (∃ sp ∈ splitOnChar ',' body,
        ((splitOnChar '-' sp).length = 1 ∨ (splitOnChar '-' sp).length = 2) ∧
        ∃ a rest2, splitOnChar '-' sp = a :: rest2 ∧
          ((∃ e0, pyInt a = .error e0) ∨
            (∃ x, pyInt a = .ok x ∧ ∃ b, rest2 = [b] ∧ ∃ e0, pyInt b = .error e0))) →
      ∃ e, expandLoop (base ++ '[' :: (body ++ ']' :: rest)) = .error e) := by
  have hbracket : ∀ (base body rest : List Char), base ≠ [] →
      (∀ c ∈ base, c ≠ '[' ∧ c ≠ ',' ∧ c ≠ ']') → (∀ c ∈ body, c ≠ ']') →
      (∃ e, _generate_from_range_spec base body = .error e) →
      ∃ e, expandLoop (base ++ '[' :: (body ++ ']' :: rest)) = .error e := by
    intro base body rest hne hbase hbody ⟨e0, he0⟩
    rw [expandLoop_bracket base body rest hne hbase hbody, he0, exceptErrBind]
    exact ⟨e0, rfl⟩
  refine ⟨?_, ?_, ?_, ?_, ?_, ?_⟩
  · intro s c rest hstrip hc
    unfold _expand_slurm_node_spec
    rw [hstrip]
    exact expandLoop_leading_sep c rest hc
  · intro base rest hne hclean
    rw [expandLoop_comma base (',' :: rest) hne hclean]
    obtain ⟨e, he⟩ := expandLoop_leading_sep ',' rest (Or.inr rfl)
    rw [he]
    exact ⟨e, rfl⟩
  · intro s hmem hnot
    unfold _expand_slurm_node_spec
    exact expandLoop_unmatched (stripWs s.data).length _ le_rfl hmem hnot
  · intro base body rest hne hbase hbody ⟨sp, hsp, hlen⟩
    exact hbracket base body rest hne hbase hbody
      (generate_error base body ⟨sp, hsp, processSpan_too_many_parts base body sp hlen⟩)
  · intro base body rest hne hbase hbody ⟨sp, hsp, a, b, x, y, hl, ha, hb, hlt⟩
    exact hbracket base body rest hne hbase hbody
      (generate_error base body
        ⟨sp, hsp, processSpan_descending base body sp hl ha hb hlt⟩)
  · intro base body rest hne hbase hbody ⟨sp, hsp, hlen, a, rest2, hl, hbad⟩
    refine hbracket base body rest hne hbase hbody (generate_error base body ⟨sp, hsp, ?_⟩)
    rcases hbad with ⟨e0, ha⟩ | ⟨x, ha, b, hb2, e0, hbe⟩
    · refine processSpan_bad_first base body sp ?_ ha
      rcases hlen with h1 | h2
      · left
        rw [hl] at h1 ⊢
        simp only [List.length_cons] at h1
        rw [List.length_eq_zero.mp (by omega : rest2.length = 0)]
      · right
        rw [hl] at h2 ⊢
        simp only [List.length_cons] at h2
        obtain ⟨b, hb⟩ := List.length_eq_one.mp (by omega : rest2.length = 1)
        exact ⟨b, by rw [hb]⟩
    · subst hb2
      exact processSpan_bad_second base body sp (by rw [hl]) ha hbe

/-- Witness for C3: each error class exercised at the spec's own examples. -/
theorem claim_C3_malformed_specs_raise_witness :
    (∃ e, _expand_slurm_node_spec ",queue1-dy-c5_xlarge-1" = .error e)
    ∧ (∃ e, expandLoop ('x' :: ',' :: ',' :: ['y']) = .error e)
    ∧ (∃ e, _expand_slurm_node_spec "queue1-dy-c5_xlarge-[1-2" = .error e)
    ∧ (∃ e, expandLoop ('q' :: '[' :: ('1' :: '-' :: '3' :: '-' :: '8' :: [] ++ ']' :: [])) = .error e)
    ∧ (∃ e, expandLoop ('q' :: '[' :: ('2' :: '-' :: '1' :: [] ++ ']' :: [])) = .error e)
    ∧ (∃ e, expandLoop ('q' :: '[' :: ('1' :: '-' :: 'a' :: [] ++ ']' :: [])) = .error e) := by
  refine ⟨?_, ?_, ?_, ?_, ?_, ?_⟩
  · exact claim_C3_malformed_specs_raise.1 ",queue1-dy-c5_xlarge-1" ','
      "queue1-dy-c5_xlarge-1".data rfl (Or.inr rfl)
  · exact claim_C3_malformed_specs_raise.2.1 ['x'] ['y'] (by simp) (by decide)
  · exact claim_C3_malformed_specs_raise.2.2.1 "queue1-dy-c5_xlarge-[1-2"
      (by decide) (by decide)
  · exact claim_C3_malformed_specs_raise.2.2.2.1 ['q'] ['1','-','3','-','8'] []
      (by simp) (by decide) (by decide) (by decide)
  · exact claim_C3_malformed_specs_raise.2.2.2.2.1 ['q'] ['2','-','1'] []
      (by simp) (by decide) (by decide)
      ⟨['2','-','1'], by decide, ['2'], ['1'], 2, 1, by decide, rfl, rfl, by omega⟩
  · exact claim_C3_malformed_specs_raise.2.2.2.2.2 ['q'] ['1','-','a'] []
      (by simp) (by decide) (by decide)
      ⟨['1','-','a'], by decide, Or.inr rfl, ['1'], [['a']], by decide,
        Or.inr ⟨1, rfl, ['a'], rfl, ⟨_, rfl⟩⟩⟩

/-! ## C4 -/

theorem expandLoop_a12x :
    expandLoop ('a' :: '[' :: (('1' :: '-' :: '2' :: []) ++ ']' :: ['x']))
      = .ok ["a1", "a2", "x"] := by
  show expandLoop (['a'] ++ '[' :: (['1', '-', '2'] ++ ']' :: ['x'])) = _
  rw [expandLoop_bracket ['a'] ['1', '-', '2'] ['x'] (by simp) (by decide) (by decide)]
  rw [show _generate_from_range_spec ['a'] ['1', '-', '2'] = .ok ["a1", "a2"] from rfl]
  rw [exceptOkBind, show dropLeadingComma ['x'] = ['x'] from rfl,
    expandLoop_plain (s := ['x']) (by simp) (by decide)]
  rfl

/-- C4 (counterexample): the claim says `_expand_slurm_node_spec "a[1-2]x"`
raises because the character after `]` is neither a comma nor end of input;
in fact the call succeeds and yields the trailing fragment `"x"` as an extra
node name. -/
theorem claim_C4_counterexample_trailing_fragment :
    _expand_slurm_node_spec "a[1-2]x" = .ok ["a1", "a2", "x"]
    ∧ ¬∃ e, _expand_slurm_node_spec "a[1-2]x" = .error e := by
  have h : _expand_slurm_node_spec "a[1-2]x" = .ok ["a1", "a2", "x"] := by
    unfold _expand_slurm_node_spec
    rw [show stripWs "a[1-2]x".data
        = 'a' :: '[' :: (('1' :: '-' :: '2' :: []) ++ ']' :: ['x']) from rfl]
    exact expandLoop_a12x
  refine ⟨h, ?_⟩
  rintro ⟨e, he⟩
  rw [h] at he
  cases he

/-- C4 (amended): after a closing `]` the scanner consumes one following
comma if present and otherwise resumes scanning directly at the next
character — a trailing fragment that does not start with a comma is not
rejected but parsed as the next element(s) and yielded as additional node
names; e.g. `"a[1-2]x,b"` expands to `["a1", "a2", "x", "b"]`. -/
theorem claim_C4_amended_trailing_fragment_is_parsed :
    (∀ rest : List Char, rest.head? ≠ some ',' →
      expandLoop ('a' :: '[' :: (('1' :: '-' :: '2' :: []) ++ ']' :: rest))
        = (fun t => ["a1", "a2"] ++ t) <$> expandLoop rest)
    ∧ _expand_slurm_node_spec "a[1-2]x,b" = .ok ["a1", "a2", "x", "b"] := by
  constructor
  · intro rest hrest
    show expandLoop (['a'] ++ '[' :: (['1', '-', '2'] ++ ']' :: rest)) = _
    rw [expandLoop_bracket ['a'] ['1', '-', '2'] rest (by simp) (by decide) (by decide)]
    rw [show _generate_from_range_spec ['a'] ['1', '-', '2'] = .ok ["a1", "a2"] from rfl]
    rw [exceptOkBind, dropLeadingComma_eq_self hrest]
    cases expandLoop rest with
    | error e => rfl
    | ok t => rfl
  · unfold _expand_slurm_node_spec
    rw [show stripWs "a[1-2]x,b".data
        = 'a' :: '[' :: (('1' :: '-' :: '2' :: []) ++ ']' :: ('x' :: ',' :: ['b'])) from rfl]
    show expandLoop (['a'] ++ '[' :: (['1', '-', '2'] ++ ']' :: ('x' :: ',' :: ['b']))) = _
    rw [expandLoop_bracket ['a'] ['1', '-', '2'] ('x' :: ',' :: ['b'])
      (by simp) (by decide) (by decide)]
    rw [show _generate_from_range_spec ['a'] ['1', '-', '2'] = .ok ["a1", "a2"] from rfl]
    rw [exceptOkBind,
      show dropLeadingComma ('x' :: ',' :: ['b']) = 'x' :: ',' :: ['b'] from rfl,
      show ('x' :: ',' :: ['b'] : List Char) = ['x'] ++ ',' :: ['b'] from rfl,
      expandLoop_comma ['x'] ['b'] (by simp) (by decide),
      expandLoop_plain (s := ['b']) (by simp) (by decide)]
    rfl

/-- Witness for C4's amended theorem at the concrete trailing fragment `"x"`. -/
theorem claim_C4_amended_trailing_fragment_is_parsed_witness :
    expandLoop ('a' :: '[' :: (('1' :: '-' :: '2' :: []) ++ ']' :: ['x']))
      = (fun t => ["a1", "a2"] ++ t) <$> expandLoop ['x'] :=
  claim_C4_amended_trailing_fragment_is_parsed.1 ['x'] (by decide)

/-! ## C9 -/

/-- C9 (counterexample): `publish_suspend_events` passes no timestamp to the
sink at all — the single sink invocation it makes carries `timestamp = none`,
so it is not the case that every public publish method passes a
timestamp computed at entry to every sink invocation. -/
theorem claim_C9_counterexample_suspend_has_no_timestamp :
    publish_suspend_events ⟨100⟩ "n-1"
      = .ok [{ level := "DEBUG", message := "Node Suspended",
               event_type := "suspend-node", timestamp := none, detail := none,
               event_supplier := some [Value.obj [("detail",
                 Value.obj [("nodes", Value.arr [Value.str "n-1"])])]] }]
    ∧ ¬∃ (ts : String) (cs : List SinkCall),
        publish_suspend_events ⟨100⟩ "n-1" = .ok cs ∧ cs ≠ []
        ∧ ∀ c ∈ cs, c.timestamp = some ts := by
  have hexp : _expand_slurm_node_spec "n-1" = .ok ["n-1"] := by
    unfold _expand_slurm_node_spec
    rw [show stripWs "n-1".data = "n-1".data from rfl,
      expandLoop_plain (by decide) (by decide)]
    rfl
  have h : publish_suspend_events ⟨100⟩ "n-1"
      = .ok [{ level := "DEBUG", message := "Node Suspended",
               event_type := "suspend-node", timestamp := none, detail := none,
               event_supplier := some [Value.obj [("detail",
                 Value.obj [("nodes", Value.arr [Value.str "n-1"])])]] }] := by
    unfold publish_suspend_events
    rw [hexp, exceptOkBind]
    rfl
  refine ⟨h, ?_⟩
  rintro ⟨ts, cs, hcs, hne, hall⟩
  rw [h] at hcs
  injection hcs with hcs
  subst hcs
  have := hall _ (List.mem_singleton.mpr rfl)
  cases this

/-- C9 (amended): every public publish method except `publish_suspend_events`
and `publish_suspend_error_events` passes one timestamp value to every sink
invocation it makes (`publish_unhealthy_static_node_events` calls
`timestamp()` twice and passes the second value everywhere); the two suspend
methods pass no timestamp at all. -/
theorem claim_C9_amended_single_timestamp :
    ∀ (self : ClusterEventPublisher) (ts : String),
      (∀ ns, ∀ c ∈ publish_cluster_node_events self ts ns, c.timestamp = some ts)
      ∧ (∀ ns, ∀ c ∈ publish_powering_down_node_events self ts ns, c.timestamp = some ts)
      ∧ (∀ ns its pdn, ∀ c ∈ publish_unhealthy_dynamic_node_events self ts ns its pdn,
          c.timestamp = some ts)
      ∧ (∀ ts1 ns its sn nir fn,
          ∀ c ∈ publish_unhealthy_static_node_events self ts1 ts ns its sn nir fn,
          c.timestamp = some ts)
      ∧ (∀ ci its, ∀ c ∈ publish_orphaned_instance_events self ts ci its,
          c.timestamp = some ts)
      ∧ (∀ pm, ∀ c ∈ publish_entering_protected_mode_events self ts pm,
          c.timestamp = some ts)
      ∧ (∀ hct nf rb, ∀ c ∈ publish_nodes_failing_health_check_events self ts hct nf rb,
          c.timestamp = some ts)
      ∧ (∀ nir, ∀ c ∈ publish_failed_health_check_nodes_in_replacement self ts nir,
          c.timestamp = some ts)
      ∧ (∀ pdn its, ∀ c ∈ publish_handle_powering_down_nodes_events self ts pdn its,
          c.timestamp = some ts)
      ∧ (∀ sn, ∀ c ∈ publish_add_instance_for_nodes_success_events self ts sn,
          c.timestamp = some ts)
      ∧ (∀ ec em fn, ∀ c ∈ publish_add_instance_for_nodes_failure_events self ts ec em fn,
          c.timestamp = some ts)
      ∧ (∀ sn fn, ∀ c ∈ publish_node_launch_events self ts sn fn, c.timestamp = some ts)
      ∧ (∀ spec cs, publish_suspend_events self spec = .ok cs →
          ∀ c ∈ cs, c.timestamp = none)
      ∧ (∀ em spec cs, publish_suspend_error_events self em spec = .ok cs →
          ∀ c ∈ cs, c.timestamp = none) := by
  intro self ts
  refine ⟨?_, ?_, ?_, ?_, ?_, ?_, ?_, ?_, ?_, ?_, ?_, ?_, ?_, ?_⟩
  · intro ns c hc
    simp only [publish_cluster_node_events, List.mem_cons, List.not_mem_nil,
      or_false] at hc
    rcases hc with rfl | rfl | rfl <;> rfl
  · intro ns c hc
    simp only [publish_powering_down_node_events, List.mem_cons, List.not_mem_nil,
      or_false] at hc
    rcases hc with rfl | rfl <;> rfl
  · intro ns its pdn c hc
    simp only [publish_unhealthy_dynamic_node_events, List.mem_cons, List.not_mem_nil,
      or_false] at hc
    rcases hc with rfl | rfl | rfl | rfl <;> rfl
  · intro ts1 ns its sn nir fn c hc
    simp only [publish_unhealthy_static_node_events, List.mem_append, List.mem_cons,
      List.not_mem_nil, or_false, List.mem_map] at hc
    rcases hc with (rfl | rfl | rfl | rfl | rfl | rfl | rfl | rfl) | ⟨pr, hpr, rfl⟩ <;> rfl
  · intro ci its c hc
    simp only [publish_orphaned_instance_events, List.mem_cons, List.not_mem_nil,
      or_false] at hc
    rcases hc with rfl | rfl <;> rfl
  · intro pm c hc
    simp only [publish_entering_protected_mode_events, List.mem_cons, List.not_mem_nil,
      or_false] at hc
    rcases hc with rfl | rfl <;> rfl
  · intro hct nf rb c hc
    simp only [publish_nodes_failing_health_check_events, List.mem_cons,
      List.not_mem_nil, or_false] at hc
    rcases hc with rfl | rfl | rfl <;> rfl
  · intro nir c hc
    simp only [publish_failed_health_check_nodes_in_replacement, List.mem_cons,
      List.not_mem_nil, or_false] at hc
    rcases hc with rfl | rfl <;> rfl
  · intro pdn its c hc
    simp only [publish_handle_powering_down_nodes_events, List.mem_cons,
      List.not_mem_nil, or_false] at hc
    rcases hc with rfl | rfl <;> rfl
  · intro sn c hc
    simp only [publish_add_instance_for_nodes_success_events, List.mem_cons,
      List.not_mem_nil, or_false] at hc
    rcases hc with rfl
    rfl
  · intro ec em fn c hc
    simp only [publish_add_instance_for_nodes_failure_events, List.mem_cons,
      List.not_mem_nil, or_false] at hc
    rcases hc with rfl
    rfl
  · intro sn fn c hc
    simp only [publish_node_launch_events, List.mem_cons, List.not_mem_nil,
      or_false] at hc
    rcases hc with rfl | rfl | rfl | rfl <;> rfl
  · intro spec cs hcs c hc
    unfold publish_suspend_events at hcs
    cases hexp : _expand_slurm_node_spec spec with
    | error e =>
      rw [hexp, exceptErrBind] at hcs
      cases hcs
    | ok nodes =>
      rw [hexp, exceptOkBind] at hcs
      injection hcs with hcs
      subst hcs
      rcases List.mem_singleton.mp hc with rfl
      rfl
  · intro em spec cs hcs c hc
    unfold publish_suspend_error_events at hcs
    cases hexp : _expand_slurm_node_spec spec with
    | error e =>
      rw [hexp, exceptErrBind] at hcs
      cases hcs
    | ok nodes =>
      rw [hexp, exceptOkBind] at hcs
      injection hcs with hcs
      subst hcs
      rcases List.mem_singleton.mp hc with rfl
      rfl

/-- Witness for C9's amended theorem: a concrete sink call of a
timestamp-passing method carries that timestamp, and the concrete suspend
sink call carries none. -/
theorem claim_C9_amended_single_timestamp_witness :
    ({ level := "INFO", message := "Node State Counts",
       event_type := "node-state-count", timestamp := some "T", detail := none,
       event_supplier := some (_count_cluster_states []) } : SinkCall).timestamp
      = some "T"
    ∧ ({ level := "DEBUG", message := "Node Suspended", event_type := "suspend-node",
         timestamp := none, detail := none,
         event_supplier := some [Value.obj [("detail",
           Value.obj [("nodes", Value.arr (List.map Value.str ["n-1"]))])]] }
        : SinkCall).timestamp = none := by
  constructor
  · exact (claim_C9_amended_single_timestamp ⟨100⟩ "T").1 [] _ (List.Mem.head _)
  · have hexp : _expand_slurm_node_spec "n-1" = .ok ["n-1"] := by
      unfold _expand_slurm_node_spec
      rw [show stripWs "n-1".data = "n-1".data from rfl,
        expandLoop_plain (by decide) (by decide)]
      rfl
    have hok : publish_suspend_events ⟨100⟩ "n-1"
        = .ok [{ level := "DEBUG", message := "Node Suspended",
                 event_type := "suspend-node", timestamp := none, detail := none,
                 event_supplier := some [Value.obj [("detail",
                   Value.obj [("nodes", Value.arr (List.map Value.str ["n-1"]))])]] }] := by
      unfold publish_suspend_events
      rw [hexp, exceptOkBind]
    exact (claim_C9_amended_single_timestamp ⟨100⟩ "T").2.2.2.2.2.2.2.2.2.2.2.2.1
      "n-1" _ hok _ (List.Mem.head _)

/-- Witness for C8 at the spec's example idle times `[5, 9, 3]` (all dynamic
nodes): the most-idle node is the one with idle time 9 and `idle-count` is 3. -/
theorem claim_C8_most_idle_node_selection_witness :
    _format_node_idle_time
        (pyMaxByIdleTime
          (idlePartition
            [⟨"n5", "idle", "q", "c", none, 5, none, none, true, Value.null⟩,
             ⟨"n9", "idle", "q", "c", none, 9, none, none, true, Value.null⟩,
             ⟨"n3", "idle", "q", "c", none, 3, none, none, true, Value.null⟩]).1)
        (idlePartition
          [⟨"n5", "idle", "q", "c", none, 5, none, none, true, Value.null⟩,
           ⟨"n9", "idle", "q", "c", none, 9, none, none, true, Value.null⟩,
           ⟨"n3", "idle", "q", "c", none, 3, none, none, true, Value.null⟩]).1
      = Value.obj [("idle-time", .num 9), ("idle-count", .num 3),
                   ("most-idle-node", mostIdleNodeObj
                     ⟨"n9", "idle", "q", "c", none, 9, none, none, true, Value.null⟩)] :=
  (((claim_C8_most_idle_node_selection
      [⟨"n5", "idle", "q", "c", none, 5, none, none, true, Value.null⟩,
       ⟨"n9", "idle", "q", "c", none, 9, none, none, true, Value.null⟩,
       ⟨"n3", "idle", "q", "c", none, 3, none, none, true, Value.null⟩]).2.2 _
    (Or.inl rfl)).2.2
    ⟨"n9", "idle", "q", "c", none, 9, none, none, true, Value.null⟩ rfl).2.2
